import Mathlib

/-!
# Zentra web client: session bootstrap, API client and dashboard handlers

A shallow embedding of `frontend/src/api.js`, `frontend/src/App.jsx` and
`frontend/src/Dashboard.jsx`.

* JavaScript strings are Lean strings; `undefined` and `null` are `none`.
* An `async` handler is cut at its `await` points.  Each piece is the list of
  effects (state-setter calls and issued requests) it performs, in program
  order; `run` replays such a list on a state.
* The network is an input: the settlement of every awaited call is given as an
  `Outcome`.
-/

namespace Js

/-- ECMAScript `WhiteSpace` and `LineTerminator` code points: the characters removed by
`String.prototype.trim` and skipped at the start of the argument of `parseFloat`. -/
def isWhiteSpace (c : Char) : Bool :=
  [0x9, 0xA, 0xB, 0xC, 0xD, 0x20, 0xA0, 0x1680, 0x2028, 0x2029, 0x202F, 0x205F, 0x3000,
    0xFEFF].contains c.toNat || (0x2000 ≤ c.toNat && c.toNat ≤ 0x200A)

/-- The method `String.prototype.trim`. -/
def trim (s : String) : String :=
  ⟨((s.data.dropWhile isWhiteSpace).reverse.dropWhile isWhiteSpace).reverse⟩

/-- Truthiness of a string value: every string but the empty one. -/
def truthyStr (s : String) : Bool := s != ""

/-- Truthiness of a value that is `undefined`/`null` or a string. -/
def truthy : Option String → Bool
  | none => false
  | some s => truthyStr s

mutual
/-- A JSON value of a response body.  A number is given by whether it is zero and by the text
that `String(x)` gives it. -/
inductive Json
  | null
  | bool (b : Bool)
  | num (zero : Bool) (text : String)
  | str (s : String)
  | arr (items : JsonList)
  | obj (fields : JsonList)
  deriving DecidableEq
/-- The values of the elements of an array, or of the properties of an object, in order. -/
inductive JsonList
  | nil
  | cons (head : Json) (tail : JsonList)
  deriving DecidableEq
end

/-- Truthiness of a JSON value: `null`, `false`, zero and the empty string are falsy. -/
def Json.truthy : Json → Bool
  | .null => false
  | .bool b => b
  | .num zero _ => !zero
  | .str s => truthyStr s
  | .arr _ => true
  | .obj _ => true

mutual
/-- The string conversion of a template literal, `String(x)`: an array is its elements joined
by commas, an object is `[object Object]`. -/
def Json.toStr : Json → String
  | .null => "null"
  | .bool b => if b then "true" else "false"
  | .num _ text => text
  | .str s => s
  | .arr items => JsonList.join items
  | .obj _ => "[object Object]"
/-- The method `Array.prototype.join` with a comma: `null` elements give the empty string. -/
def JsonList.join : JsonList → String
  | .nil => ""
  | .cons .null .nil => ""
  | .cons head .nil => Json.toStr head
  | .cons .null tail => "," ++ JsonList.join tail
  | .cons head tail => Json.toStr head ++ "," ++ JsonList.join tail
end

/-- The expression `a || b` where `a` may be `undefined`. -/
def Json.orElse (a : Option Json) (b : Json) : Json :=
  match a with
  | some v => if v.truthy then v else b
  | none => b

/-- Number values as `parseFloat` produces them.  `finite neg mant exp` is the double
`mant * 2 ^ exp` (negated when `neg`) in the binary64 format: `mant < 2 ^ 53`,
`-1074 ≤ exp ≤ 971`, and `2 ^ 52 ≤ mant` unless `exp = -1074`; zero is `mant = 0` at
`exp = -1074`, and `finite true 0 (-1074)` is `-0`. -/
inductive Num
  | nan
  | infinity (neg : Bool)
  | finite (neg : Bool) (mant : Nat) (exp : Int)
  deriving DecidableEq

/-- The Number `0`. -/
def Num.zero : Num := .finite false 0 (-1074)

/-- Falsy numbers are `NaN`, `0` and `-0`. -/
def Num.falsy : Num → Bool
  | .nan => true
  | .infinity _ => false
  | .finite _ mant _ => mant == 0

/-- The expression `x || 0` for a number `x`. -/
def Num.orZero (x : Num) : Num := if x.falsy then Num.zero else x

/-- Whether `2 ^ k ≤ n / d`. -/
def geTwoPow (n d : Nat) (k : Int) : Bool :=
  if 0 ≤ k then d <<< k.toNat ≤ n else d ≤ n <<< (-k).toNat

/-- Bisection for the largest `k` in a window of `2 ^ fuel` exponents above `lo` with
`2 ^ k ≤ n / d`; `lo` itself when there is none. -/
def searchLog2 (n d : Nat) : Nat → Int → Int
  | 0, lo => lo
  | fuel + 1, lo =>
    if geTwoPow n d (lo + ((1 <<< fuel : Nat) : Int)) then
      searchLog2 n d fuel (lo + ((1 <<< fuel : Nat) : Int))
    else searchLog2 n d fuel lo

/-- The binary exponent of `n / d`, the largest `k` with `2 ^ k ≤ n / d`, kept within
`-1075 ≤ k ≤ 3020` (beyond these bounds the double is a subnormal or overflows whatever `k`). -/
def floorLog2 (n d : Nat) : Int := searchLog2 n d 12 (-1075)

/-- The double for the real number `n / d` (`d` positive), as mantissa and binary exponent:
round to nearest, ties to even; `none` when it overflows to `Infinity`. -/
def roundDouble (n d : Nat) : Option (Nat × Int) :=
  if n = 0 then some (0, -1074)
  else
    let q : Int := max (floorLog2 n d - 52) (-1074)
    let num := if 0 ≤ q then n else n <<< (-q).toNat
    let den := if 0 ≤ q then d <<< q.toNat else d
    let m := if den < 2 * (num % den) ∨ (2 * (num % den) = den ∧ num / den % 2 = 1)
      then num / den + 1 else num / den
    let mq : Nat × Int := if m = 2 ^ 53 then (2 ^ 52, q + 1) else (m, q)
    if 971 < mq.2 then none else some mq

/-- The Number value for the decimal `mant * 10 ^ exp` under a sign (the rounding of
`StringNumericValue`). -/
def Num.ofDecimal (neg : Bool) (mant : Nat) (exp : Int) : Num :=
  match (if 0 ≤ exp then roundDouble (mant * 10 ^ exp.toNat) 1
    else roundDouble mant (10 ^ (-exp).toNat)) with
  | none => .infinity neg
  | some (m, e) => .finite neg m e

/-- Decimal digits `0` to `9`. -/
def isDigit (c : Char) : Bool := 48 ≤ c.toNat && c.toNat ≤ 57

/-- Mathematical value of a string of decimal digits. -/
def digitsVal (ds : List Char) : Nat :=
  ds.foldl (fun n c => 10 * n + (c.toNat - 48)) 0

/-- Value of the longest `ExponentPart` (`e` or `E`, an optional sign, digits) that starts the
input, `none` when there is none. -/
def exponentPart : List Char → Option Int
  | c :: rest =>
    if c = 'e' || c = 'E' then
      match rest with
      | '+' :: ds =>
        if (ds.takeWhile isDigit).isEmpty then none
        else some (digitsVal (ds.takeWhile isDigit))
      | '-' :: ds =>
        if (ds.takeWhile isDigit).isEmpty then none
        else some (-(digitsVal (ds.takeWhile isDigit) : Int))
      | ds =>
        if (ds.takeWhile isDigit).isEmpty then none
        else some (digitsVal (ds.takeWhile isDigit))
    else none
  | [] => none

/-- Whether the input starts with the word `Infinity`. -/
def startsInfinity : List Char → Bool
  | 'I' :: 'n' :: 'f' :: 'i' :: 'n' :: 'i' :: 't' :: 'y' :: _ => true
  | _ => false

/-- Value of the longest prefix that is a `StrUnsignedDecimalLiteral`: `Infinity`, or digits with
an optional fraction and exponent, or a fraction with an optional exponent.  The outer `none` says
there is no such prefix; the inner `none` is `Infinity`; a pair `(mant, exp)` is the decimal
`mant * 10 ^ exp`. -/
def unsignedLiteral (cs : List Char) : Option (Option (Nat × Int)) :=
  if startsInfinity cs then some none
  else
    match cs.dropWhile isDigit with
    | '.' :: r =>
      if (cs.takeWhile isDigit).isEmpty && (r.takeWhile isDigit).isEmpty then none
      else
        some (some (digitsVal (cs.takeWhile isDigit ++ r.takeWhile isDigit),
          (exponentPart (r.dropWhile isDigit)).getD 0 - ((r.takeWhile isDigit).length : Int)))
    | r =>
      if (cs.takeWhile isDigit).isEmpty then none
      else some (some (digitsVal (cs.takeWhile isDigit), (exponentPart r).getD 0))

/-- The Number for the longest `StrUnsignedDecimalLiteral` that starts the input, under a sign;
`NaN` when there is none. -/
def signedLiteral (neg : Bool) (cs : List Char) : Num :=
  match unsignedLiteral cs with
  | none => .nan
  | some none => .infinity neg
  | some (some (mant, exp)) => Num.ofDecimal neg mant exp

/-- The global function `parseFloat` on a string: skip leading white space, take the longest
prefix that is a `StrDecimalLiteral`, answer `NaN` when there is none. -/
def parseFloat (s : String) : Num :=
  match s.data.dropWhile isWhiteSpace with
  | '-' :: cs => signedLiteral true cs
  | '+' :: cs => signedLiteral false cs
  | cs => signedLiteral false cs

/-- Whether the input starts as a `StrUnsignedDecimalLiteral` does: with the word `Infinity`,
with a digit, or with a dot and then a digit. -/
def startsUnsigned (cs : List Char) : Bool :=
  startsInfinity cs ||
    match cs with
    | c :: rest => isDigit c || (c == '.' && (rest.head?.map isDigit).getD false)
    | [] => false

/-- Whether a string starts, after white space and at most one sign, as a numeric literal
does. -/
def startsNumeric (s : String) : Bool :=
  match s.data.dropWhile isWhiteSpace with
  | '-' :: cs => startsUnsigned cs
  | '+' :: cs => startsUnsigned cs
  | cs => startsUnsigned cs

/-- A decimal number as text: at most one sign (`some true` is `-`, `some false` is `+`),
integer digits, then possibly a dot with fraction digits, then possibly an exponent (its
indicator, at most one sign, digits). -/
structure Decimal where
  sign : Option Bool
  int : List Char
  frac : Option (List Char)
  exp : Option (Char × Option Bool × List Char)

/-- The text of a sign. -/
def Decimal.signText : Option Bool → List Char
  | none => []
  | some true => ['-']
  | some false => ['+']

/-- The text of the fraction: a dot and the fraction digits. -/
def Decimal.fracText : Option (List Char) → List Char
  | none => []
  | some fp => '.' :: fp

/-- The text of the exponent. -/
def Decimal.expText : Option (Char × Option Bool × List Char) → List Char
  | none => []
  | some (c, sg, ds) => c :: (Decimal.signText sg ++ ds)

/-- The characters of the number after its sign. -/
def Decimal.body (d : Decimal) : List Char :=
  d.int ++ (Decimal.fracText d.frac ++ Decimal.expText d.exp)

/-- The characters of the number. -/
def Decimal.text (d : Decimal) : List Char := Decimal.signText d.sign ++ d.body

/-- The text is a number: digits where digits are due, at least one digit before the exponent,
and an exponent made of `e` or `E`, at most one sign and at least one digit. -/
def Decimal.wellFormed (d : Decimal) : Bool :=
  d.int.all isDigit && (d.frac.getD []).all isDigit &&
  (!d.int.isEmpty || !(d.frac.getD []).isEmpty) &&
  (match d.exp with
    | none => true
    | some (c, _, ds) => (c == 'e' || c == 'E') && ds.all isDigit && !ds.isEmpty)

/-- The value of the exponent, `0` when there is none. -/
def Decimal.expValue : Option (Char × Option Bool × List Char) → Int
  | none => 0
  | some (_, some true, ds) => -(digitsVal ds : Int)
  | some (_, _, ds) => digitsVal ds

/-- The digits of the number read as a natural number: integer digits, then fraction digits. -/
def Decimal.mantissa (d : Decimal) : Nat := digitsVal (d.int ++ d.frac.getD [])

/-- The power of ten that scales the mantissa: the exponent less the number of fraction
digits. -/
def Decimal.exponent (d : Decimal) : Int :=
  Decimal.expValue d.exp - ((d.frac.getD []).length : Int)

/-- Whether the number carries a minus sign. -/
def Decimal.negative (d : Decimal) : Bool := d.sign == some true

/-- The numeric value of the number: the double nearest to it, under its sign. -/
def Decimal.number (d : Decimal) : Num :=
  Num.ofDecimal d.negative d.mantissa d.exponent

/-- Whether what follows the number cannot be read as more of it: no digit; no dot unless the
number has a fraction or an exponent already; no exponent unless it has one already. -/
def Decimal.endsBefore (d : Decimal) (rest : List Char) : Bool :=
  !(rest.head?.map isDigit).getD false &&
  (d.exp.isSome || (exponentPart rest).isNone) &&
  (d.frac.isSome || d.exp.isSome || !(rest.head? == some '.'))

end Js

/-! ## `api.js` -/

namespace Api

/-- The object `api.defaults.headers.common`: property names with their values, in insertion
order. -/
abbrev Headers := List (String × String)

/-- Property read `h[k]`; `none` is `undefined`. -/
def Headers.get (h : Headers) (k : String) : Option String :=
  (h.find? fun p => p.1 == k).map Prod.snd

/-- Property assignment `h[k] = v`. -/
def Headers.set : Headers → String → String → Headers
  | [], k, v => [(k, v)]
  | p :: t, k, v => if p.1 == k then (k, v) :: t else p :: Headers.set t k v

/-- Property removal `delete h[k]`. -/
def Headers.delete (h : Headers) (k : String) : Headers :=
  h.filter fun p => !(p.1 == k)

/-- The function `setAuthToken(token)` acting on `api.defaults.headers.common`. -/
def setAuthToken (common : Headers) (token : Option String) : Headers :=
  if Js.truthy token then
    common.set "Authorization" ("Bearer " ++ token.getD "")
  else
    common.delete "Authorization"

/-- One entry of the chat transcript, `role` and `content`. -/
inductive Role
  | user
  | assistant
  deriving DecidableEq

/-- A chat message object. -/
structure Message where
  role : Role
  content : String
  deriving DecidableEq

/-- A `File` picked in the upload form. -/
structure File where
  name : String
  deriving DecidableEq

/-- Request bodies built in `api.js`. -/
inductive Body
  | messages (messages : List Message)
  | score (income expenses savings debt : Js.Num)
  | form (file : File)
  deriving DecidableEq

/-- A call on the axios instance `api`. -/
inductive Request
  | get (path : String)
  | post (path : String) (body : Body)
  deriving DecidableEq

/-- The request of `getMe()`. -/
def getMe : Request := .get "/me"

/-- The request of `chat(messages)`. -/
def chat (messages : List Message) : Request := .post "/chat" (.messages messages)

/-- The request of `zentraScore(income, expenses, savings, debt)`. -/
def zentraScore (income expenses savings debt : Js.Num) : Request :=
  .post "/zentra-score" (.score income expenses savings debt)

/-- The request of `uploadFile(file)`. -/
def uploadFile (file : File) : Request := .post "/upload" (.form file)

/-- Body of an error response, with the server-supplied `detail` when there is one: a JSON
value of any shape. -/
structure ResponseData where
  detail : Option Js.Json
  deriving DecidableEq

/-- The `response` of a rejected call. -/
structure Response where
  status : Nat
  data : Option ResponseData
  deriving DecidableEq

/-- The error a call rejects with: its `message` and, when the server answered, its
`response`. -/
structure ApiError where
  message : String
  response : Option Response
  deriving DecidableEq

/-- The expression `err.response?.data?.detail`. -/
def ApiError.detail (err : ApiError) : Option Js.Json :=
  (err.response.bind Response.data).bind ResponseData.detail

/-- How an awaited call settles. -/
inductive Outcome (α : Type)
  | resolved (value : α)
  | rejected (err : ApiError)

/-- The profile object served by `GET /me`. -/
structure Profile where
  credits : Int
  deriving DecidableEq

end Api

/-! ## `Dashboard.jsx` -/

namespace Dashboard

open Api

/-- The form state `scoreInputs`: four strings. -/
structure ScoreInputs where
  income : String
  expenses : String
  savings : String
  debt : String
  deriving DecidableEq

/-- The object kept in `scoreResult`: the body answered by `/zentra-score`, or the object with
the single property `error` built by the `catch` branch of `handleScore`. -/
structure ScoreResult where
  score : Option Nat
  error : Option Js.Json
  deriving DecidableEq

/-- Body answered by `/chat`. -/
structure ChatResponse where
  message : Message
  deriving DecidableEq

/-- Body answered by `/upload`. -/
structure UploadResponse where
  summary : String
  deriving DecidableEq

/-- State of the mounted dashboard: its `useState` cells, the `profile` cell of `App` that the
prop `setProfile` writes, and the requests issued so far, oldest first. -/
structure State where
  profile : Option Profile
  messages : List Message
  input : String
  loading : Bool
  scoreInputs : ScoreInputs
  scoreResult : Option ScoreResult
  scoreLoading : Bool
  file : Option File
  uploadSummary : Option String
  uploadLoading : Bool
  requests : List Request
  deriving DecidableEq

/-- State on mount, under a given profile. -/
def State.init (profile : Option Profile) : State :=
  { profile := profile, messages := [], input := "", loading := false,
    scoreInputs := ⟨"", "", "", ""⟩, scoreResult := none, scoreLoading := false,
    file := none, uploadSummary := none, uploadLoading := false, requests := [] }

/-- What a handler does, one step at a time: a state-setter call or a request on the API
client. -/
inductive Effect
  | appendMessage (m : Message)
  | setInput (v : String)
  | setLoading (b : Bool)
  | setScoreResult (r : Option ScoreResult)
  | setScoreLoading (b : Bool)
  | setFile (f : Option File)
  | setUploadSummary (t : Option String)
  | setUploadLoading (b : Bool)
  | setProfile (p : Option Profile)
  | request (r : Request)
  deriving DecidableEq

/-- Effect of one step on the state; `appendMessage m` is the functional update
`setMessages((ms) => [...ms, m])`. -/
def step (s : State) : Effect → State
  | .appendMessage m => { s with messages := s.messages ++ [m] }
  | .setInput v => { s with input := v }
  | .setLoading b => { s with loading := b }
  | .setScoreResult r => { s with scoreResult := r }
  | .setScoreLoading b => { s with scoreLoading := b }
  | .setFile f => { s with file := f }
  | .setUploadSummary t => { s with uploadSummary := t }
  | .setUploadLoading b => { s with uploadLoading := b }
  | .setProfile p => { s with profile := p }
  | .request r => { s with requests := s.requests ++ [r] }

/-- Replay of a list of steps, in order. -/
def run (s : State) (es : List Effect) : State := es.foldl step s

/-- The function `refreshProfile`: one `getMe()`, whose data replaces the profile; a rejection
is caught by an empty `catch`. -/
def refreshProfile : Outcome Profile → List Effect
  | .resolved data => [.request getMe, .setProfile (some data)]
  | .rejected _ => [.request getMe]

/-- The early `return` of `handleChat`: `!input.trim() || loading`. -/
def chatReturnsEarly (s : State) : Bool := !Js.truthyStr (Js.trim s.input) || s.loading

/-- The message `userMsg` of `handleChat`. -/
def userMsg (s : State) : Message := ⟨.user, Js.trim s.input⟩

/-- The handler `handleChat` up to its `await apiChat(next)`. -/
def handleChatSync (s : State) : List Effect :=
  if chatReturnsEarly s then []
  else
    [.appendMessage (userMsg s), .setInput "", .setLoading true,
      .request (chat ((s.messages ++ [userMsg s]).map fun m => ⟨m.role, m.content⟩))]

/-- The string `msg` of the `catch` branch of `handleChat`:
`err.response?.data?.detail || err.message || 'Request failed'`. -/
def chatErrorText (err : ApiError) : String :=
  (Js.Json.orElse (some (Js.Json.orElse err.detail (.str err.message)))
    (.str "Request failed")).toStr

/-- The handler `handleChat` after `apiChat` has settled: the `try` continuation or the `catch`
branch, then `finally`. -/
def handleChatSettled (res : Outcome ChatResponse) (me : Outcome Profile) : List Effect :=
  (match res with
    | .resolved r => .appendMessage ⟨.assistant, r.message.content⟩ :: refreshProfile me
    | .rejected err => [.appendMessage ⟨.assistant, "Error: " ++ chatErrorText err⟩]) ++
  [.setLoading false]

/-- The handler `handleChat`, run to its end on a state `s`, when `apiChat` settles as `res` and
the `getMe` of `refreshProfile` as `me`. -/
def handleChat (s : State) (res : Outcome ChatResponse) (me : Outcome Profile) : List Effect :=
  if chatReturnsEarly s then [] else handleChatSync s ++ handleChatSettled res me

/-- The value `err.response?.data?.detail || err.message` of `handleScore` and
`handleUpload`. -/
def errorValue (err : ApiError) : Js.Json := Js.Json.orElse err.detail (.str err.message)

/-- The string `Error: ${err.response?.data?.detail || err.message}` of `handleUpload`. -/
def uploadErrorText (err : ApiError) : String := "Error: " ++ (errorValue err).toStr

/-- The number read from one field of the score form: `parseFloat(field) || 0`. -/
def scoreField (field : String) : Js.Num := (Js.parseFloat field).orZero

/-- The values that a field of the score form can hold: each field is an `input` of type
`number`, whose value is the empty string (also when what was typed is not a number) or the text
of a number. -/
def numberInputValue (field : String) : Prop :=
  field = "" ∨ ∃ d : Js.Decimal, d.wellFormed = true ∧ field = ⟨d.text⟩

/-- The call `apiZentraScore(i, ex, s, d)` of `handleScore`, on the numbers `i`, `ex`, `s`, `d`
read from the four fields. -/
def scoreRequest (f : ScoreInputs) : Request :=
  zentraScore (scoreField f.income) (scoreField f.expenses) (scoreField f.savings)
    (scoreField f.debt)

/-- The handler `handleScore` up to its `await apiZentraScore(i, ex, s, d)`. -/
def handleScoreSync (s : State) : List Effect :=
  [.setScoreLoading true, .setScoreResult none, .request (scoreRequest s.scoreInputs)]

/-- The handler `handleScore` after `apiZentraScore` has settled. -/
def handleScoreSettled : Outcome ScoreResult → List Effect
  | .resolved r => [.setScoreResult (some r), .setScoreLoading false]
  | .rejected err => [.setScoreResult (some ⟨none, some (errorValue err)⟩), .setScoreLoading false]

/-- The handler `handleScore`, run to its end when `apiZentraScore` settles as `res`. -/
def handleScore (s : State) (res : Outcome ScoreResult) : List Effect :=
  handleScoreSync s ++ handleScoreSettled res

/-- The early `return` of `handleUpload`: `!file || uploadLoading`. -/
def uploadReturnsEarly (s : State) : Bool := s.file.isNone || s.uploadLoading

/-- The handler `handleUpload` up to its `await uploadFile(file)`. -/
def handleUploadSync (s : State) : List Effect :=
  match s.file with
  | none => []
  | some f =>
    if s.uploadLoading then []
    else [.setUploadLoading true, .setUploadSummary none, .request (uploadFile f)]

/-- The handler `handleUpload` after `uploadFile` has settled. -/
def handleUploadSettled (res : Outcome UploadResponse) (me : Outcome Profile) : List Effect :=
  (match res with
    | .resolved r => [.setUploadSummary (some r.summary), .setFile none] ++ refreshProfile me
    | .rejected err => [.setUploadSummary (some (uploadErrorText err))]) ++
  [.setUploadLoading false]

/-- The handler `handleUpload`, run to its end when `uploadFile` settles as `res` and the `getMe`
of `refreshProfile` as `me`. -/
def handleUpload (s : State) (res : Outcome UploadResponse) (me : Outcome Profile) :
    List Effect :=
  if uploadReturnsEarly s then [] else handleUploadSync s ++ handleUploadSettled res me

mutual
/-- The text React renders for a JSON value placed as a child: strings and numbers as text,
`null` and booleans as nothing, an array as its elements in order; `none` when rendering throws,
which it does on an object. -/
def renderChild : Js.Json → Option String
  | .null => some ""
  | .bool _ => some ""
  | .num _ text => some text
  | .str s => some s
  | .arr items => renderChildren items
  | .obj _ => none
/-- The text React renders for the elements of an array child. -/
def renderChildren : Js.JsonList → Option String
  | .nil => some ""
  | .cons head tail =>
    match renderChild head, renderChildren tail with
    | some h, some t => some (h ++ t)
    | _, _ => none
end

/-- What the score panel shows below the form: nothing while `scoreResult` is `null`, the
paragraph of class `error` when `scoreResult.error` is truthy, the score line otherwise; or
rendering throws. -/
inductive ScorePanel
  | nothing
  | error (text : String)
  | score (value : Option Nat)
  | throws
  deriving DecidableEq

/-- The JSX under `scoreResult && (...)`. -/
def scorePanel (s : State) : ScorePanel :=
  match s.scoreResult with
  | none => .nothing
  | some r =>
    match r.error with
    | none => .score r.score
    | some e =>
      if e.truthy then
        match renderChild e with
        | some text => .error text
        | none => .throws
      else .score r.score

/-- The JSX `uploadSummary && <div className="summary">...`: the text shown, if any. -/
def uploadPanel (s : State) : Option String :=
  if Js.truthy s.uploadSummary then s.uploadSummary else none

/-- The `disabled` attribute of the submit button of the score form. -/
def scoreSubmitDisabled (s : State) : Bool := s.scoreLoading

/-- The `disabled` attribute of the submit button of the chat form. -/
def chatSubmitDisabled (s : State) : Bool := s.loading

/-- The `disabled` attribute of the submit button of the upload form: `!file || uploadLoading`. -/
def uploadSubmitDisabled (s : State) : Bool := s.file.isNone || s.uploadLoading

/-- The `try` branch of `handleChat` from the resolution of `apiChat` to the `await` inside
`refreshProfile`. -/
def handleChatResolved (r : ChatResponse) : List Effect :=
  [.appendMessage ⟨.assistant, r.message.content⟩, .request getMe]

/-- The `catch` and `finally` blocks of `handleChat`. -/
def handleChatRejected (err : ApiError) : List Effect :=
  [.appendMessage ⟨.assistant, "Error: " ++ chatErrorText err⟩, .setLoading false]

/-- The rest of `refreshProfile` once its `getMe()` has settled. -/
def refreshProfileSettled : Outcome Profile → List Effect
  | .resolved data => [.setProfile (some data)]
  | .rejected _ => []

/-- The `try` branch of `handleUpload` from the resolution of `uploadFile` to the `await` inside
`refreshProfile`. -/
def handleUploadResolved (r : UploadResponse) : List Effect :=
  [.setUploadSummary (some r.summary), .setFile none, .request getMe]

/-- The `catch` and `finally` blocks of `handleUpload`. -/
def handleUploadRejected (err : ApiError) : List Effect :=
  [.setUploadSummary (some (uploadErrorText err)), .setUploadLoading false]

/-- Whether a step issues a request. -/
def Effect.isRequest : Effect → Bool
  | .request _ => true
  | _ => false

/-- The dashboard on screen: its state, and the numbers of calls in flight: `POST /chat`, the
`refreshProfile` awaited by `handleChat`, `POST /zentra-score`, `POST /upload`, and the
`refreshProfile` awaited by `handleUpload`. -/
structure Page where
  dash : State
  chatCalls : Nat
  chatRefreshes : Nat
  scoreCalls : Nat
  uploadCalls : Nat
  uploadRefreshes : Nat

/-- The page on mount. -/
def Page.init (profile : Option Profile) : Page :=
  { dash := State.init profile, chatCalls := 0, chatRefreshes := 0, scoreCalls := 0,
    uploadCalls := 0, uploadRefreshes := 0 }

/-- What happens to the page: the user edits a field, the user submits one of the three forms
through its submit button (by a click, or by the Enter key in a field), or a call in flight
settles. -/
inductive PageEvent
  | typeInput (v : String)
  | editScore (f : ScoreInputs)
  | pickFile (f : Option File)
  | submitChat
  | submitScore
  | submitUpload
  | chatResolved (r : ChatResponse)
  | chatRejected (err : ApiError)
  | chatRefreshed (me : Outcome Profile)
  | scoreSettled (res : Outcome ScoreResult)
  | uploadResolved (r : UploadResponse)
  | uploadRejected (err : ApiError)
  | uploadRefreshed (me : Outcome Profile)

/-- The page after an event.  A form whose submit button is `disabled` is not submitted, and
the chat input takes no text while it is `disabled`; a settlement does nothing when no call of
its kind is in flight. -/
def Page.step (p : Page) : PageEvent → Page
  | .typeInput v => if p.dash.loading then p else { p with dash := run p.dash [.setInput v] }
  | .editScore f => { p with dash := { p.dash with scoreInputs := f } }
  | .pickFile f => { p with dash := run p.dash [.setFile f] }
  | .submitChat =>
    if chatSubmitDisabled p.dash then p
    else
      { p with
        dash := run p.dash (handleChatSync p.dash),
        chatCalls := p.chatCalls + (handleChatSync p.dash).countP Effect.isRequest }
  | .submitScore =>
    if scoreSubmitDisabled p.dash then p
    else
      { p with
        dash := run p.dash (handleScoreSync p.dash),
        scoreCalls := p.scoreCalls + (handleScoreSync p.dash).countP Effect.isRequest }
  | .submitUpload =>
    if uploadSubmitDisabled p.dash then p
    else
      { p with
        dash := run p.dash (handleUploadSync p.dash),
        uploadCalls := p.uploadCalls + (handleUploadSync p.dash).countP Effect.isRequest }
  | .chatResolved r =>
    if p.chatCalls = 0 then p
    else
      { p with
        dash := run p.dash (handleChatResolved r),
        chatCalls := p.chatCalls - 1, chatRefreshes := p.chatRefreshes + 1 }
  | .chatRejected err =>
    if p.chatCalls = 0 then p
    else { p with dash := run p.dash (handleChatRejected err), chatCalls := p.chatCalls - 1 }
  | .chatRefreshed me =>
    if p.chatRefreshes = 0 then p
    else
      { p with
        dash := run p.dash (refreshProfileSettled me ++ [.setLoading false]),
        chatRefreshes := p.chatRefreshes - 1 }
  | .scoreSettled res =>
    if p.scoreCalls = 0 then p
    else { p with dash := run p.dash (handleScoreSettled res), scoreCalls := p.scoreCalls - 1 }
  | .uploadResolved r =>
    if p.uploadCalls = 0 then p
    else
      { p with
        dash := run p.dash (handleUploadResolved r),
        uploadCalls := p.uploadCalls - 1, uploadRefreshes := p.uploadRefreshes + 1 }
  | .uploadRejected err =>
    if p.uploadCalls = 0 then p
    else
      { p with dash := run p.dash (handleUploadRejected err), uploadCalls := p.uploadCalls - 1 }
  | .uploadRefreshed me =>
    if p.uploadRefreshes = 0 then p
    else
      { p with
        dash := run p.dash (refreshProfileSettled me ++ [.setUploadLoading false]),
        uploadRefreshes := p.uploadRefreshes - 1 }

/-- The calls in flight agree with the pending flags: a chat call or its profile refresh is in
flight exactly when `loading` is set, and then only one of them; likewise for score and
upload. -/
def Page.consistent (p : Page) : Prop :=
  p.chatCalls + p.chatRefreshes = (if p.dash.loading then 1 else 0) ∧
  p.scoreCalls = (if p.dash.scoreLoading then 1 else 0) ∧
  p.uploadCalls + p.uploadRefreshes = (if p.dash.uploadLoading then 1 else 0)

/-- The page after a sequence of events, from mount. -/
def Page.process (profile : Option Profile) (evs : List PageEvent) : Page :=
  evs.foldl Page.step (Page.init profile)

end Dashboard

/-! ## `App.jsx` -/

namespace App

open Api

/-- The `user` object of a session. -/
structure User where
  id : String
  deriving DecidableEq

/-- A session of the auth provider. -/
structure Session where
  access_token : Option String
  user : User
  deriving DecidableEq

/-- The expression `session?.access_token`. -/
def accessToken (session : Option Session) : Option String :=
  session.bind Session.access_token

/-- State of the root controller: the default headers of the API client, the `useState` cells
of `App`, and the requests issued so far, oldest first. -/
structure State where
  headers : Headers
  user : Option User
  profile : Option Profile
  loading : Bool
  requests : List Request
  deriving DecidableEq

/-- State on mount: `user` and `profile` are `null`, `loading` is `true`. -/
def State.init (common : Headers) : State :=
  { headers := common, user := none, profile := none, loading := true, requests := [] }

/-- What a callback does, one step at a time. -/
inductive Effect
  | setAuthToken (token : Option String)
  | setUser (u : Option User)
  | setProfile (p : Option Profile)
  | setLoading (b : Bool)
  | request (r : Request)
  deriving DecidableEq

/-- Effect of one step on the state. -/
def step (s : State) : Effect → State
  | .setAuthToken token => { s with headers := Api.setAuthToken s.headers token }
  | .setUser u => { s with user := u }
  | .setProfile p => { s with profile := p }
  | .setLoading b => { s with loading := b }
  | .request r => { s with requests := s.requests ++ [r] }

/-- Replay of a list of steps, in order. -/
def run (s : State) (es : List Effect) : State := es.foldl step s

/-- The callback given to `supabase.auth.onAuthStateChange`, up to its `await api.get('/me')`
when the session has a token, to its end otherwise. -/
def onAuthStateChangeSync (session : Option Session) : List Effect :=
  match session with
  | some sess =>
    if Js.truthy sess.access_token then
      [.setAuthToken sess.access_token, .setUser (some sess.user), .request (.get "/me")]
    else [.setAuthToken none, .setUser none, .setProfile none, .setLoading false]
  | none => [.setAuthToken none, .setUser none, .setProfile none, .setLoading false]

/-- The rest of that callback once `api.get('/me')` has settled. -/
def onAuthStateChangeSettled : Outcome Profile → List Effect
  | .resolved data => [.setProfile (some data), .setLoading false]
  | .rejected _ => [.setProfile none, .setLoading false]

/-- The callback given to `supabase.auth.onAuthStateChange`, run to its end. -/
def onAuthStateChange (session : Option Session) (me : Outcome Profile) : List Effect :=
  onAuthStateChangeSync session ++
    (if Js.truthy (accessToken session) then onAuthStateChangeSettled me else [])

/-- The callback given to `supabase.auth.getSession().then`. -/
def getSessionThen (session : Option Session) : List Effect :=
  match session with
  | some sess =>
    if Js.truthy sess.access_token then
      [.setAuthToken sess.access_token, .setUser (some sess.user), .request (.get "/me"),
        .setLoading false]
    else [.setLoading false]
  | none => [.setLoading false]

/-- The callbacks chained on `api.get('/me')` in the `getSession` path:
`.then((r) => setProfile(r.data)).catch(() => setProfile(null))`. -/
def getSessionMeSettled : Outcome Profile → List Effect
  | .resolved data => [.setProfile (some data)]
  | .rejected _ => [.setProfile none]

/-- What the root controller processes after mount. -/
inductive Event
  | authStateChange (session : Option Session)
  | authStateChangeMe (me : Outcome Profile)
  | getSession (session : Option Session)
  | getSessionMe (me : Outcome Profile)

/-- The steps run for an event. -/
def handle : Event → List Effect
  | .authStateChange session => onAuthStateChangeSync session
  | .authStateChangeMe me => onAuthStateChangeSettled me
  | .getSession session => getSessionThen session
  | .getSessionMe me => getSessionMeSettled me

/-- The state after a sequence of events, processed in order. -/
def process (s : State) (evs : List Event) : State :=
  evs.foldl (fun st ev => run st (handle ev)) s

/-- The session carried by an event that observes one. -/
def Event.observed : Event → Option (Option Session)
  | .authStateChange session => some session
  | .getSession session => some session
  | _ => none

/-- The session observed last in a sequence of events, `none` when none was observed. -/
def lastObserved (evs : List Event) : Option (Option Session) :=
  evs.reverse.findSome? Event.observed

/-- The session an event makes the controller act on: every session handed to the listener,
and the session of a `getSession` resolution when it carries a token (the `getSession` callback
has no `else` branch). -/
def Event.binding : Event → Option (Option Session)
  | .authStateChange session => some session
  | .getSession session => if Js.truthy (accessToken session) then some session else none
  | _ => none

/-- The session acted on last in a sequence of events, `none` when there was none. -/
def lastBinding (evs : List Event) : Option (Option Session) :=
  evs.reverse.findSome? Event.binding

/-- The `Authorization` header that agrees with a session: `Bearer` and its token, or none. -/
def headerFor (session : Option Session) : Option String :=
  if Js.truthy (accessToken session) then some ("Bearer " ++ (accessToken session).getD "")
  else none

/-- The three `Route` elements. -/
inductive RouteId
  | login
  | root
  | catchAll
  deriving DecidableEq

/-- The two views. -/
inductive View
  | login
  | dashboard
  deriving DecidableEq

/-- The `element` of a route: a view, or a `Navigate` to another path. -/
inductive Element
  | view (v : View)
  | navigate (target : String)
  deriving DecidableEq

/-- The `element` prop of each `Route`, given the `user` cell. -/
def routeElement (user : Option User) : RouteId → Element
  | .login => if user.isSome then .navigate "/" else .view .login
  | .root => if user.isSome then .view .dashboard else .navigate "/login"
  | .catchAll => .navigate (if user.isSome then "/" else "/login")

/-- Route matching on exact paths: `/login`, `/`, and `*` for the rest. -/
def matchRoute (path : String) : RouteId :=
  if path = "/login" then .login else if path = "/" then .root else .catchAll

/-- The view reached from `path`, following `Navigate` elements at most `fuel` times through
the route table; `none` when the redirects have not ended by then. -/
def resolve (matcher : String → RouteId) (user : Option User) : Nat → String → Option View
  | 0, _ => none
  | fuel + 1, path =>
    match routeElement user (matcher path) with
    | .view v => some v
    | .navigate target => resolve matcher user fuel target

/-- What `App` renders. -/
inductive Screen
  | loading
  | view (v : View)
  deriving DecidableEq

/-- The `return` of `App`: the loading placeholder while `loading`, the routes otherwise. -/
def render (matcher : String → RouteId) (s : State) (fuel : Nat) (path : String) :
    Option Screen :=
  if s.loading then some .loading else (resolve matcher s.user fuel path).map .view

end App

/-! ## Theorems -/

theorem Js.isDigit_not_ws (c : Char) (h : Js.isDigit c = true) : Js.isWhiteSpace c = false := by
  simp only [Js.isDigit, Bool.and_eq_true, decide_eq_true_eq] at h
  simp [Js.isWhiteSpace]
  omega

theorem Js.isDigit_ne (c d : Char) (h : Js.isDigit c = true) (hd : Js.isDigit d = false) :
    c ≠ d := by
  intro e
  rw [e, hd] at h
  exact Bool.noConfusion h

theorem Js.takeWhile_digits (ds rest : List Char) (hds : ∀ c ∈ ds, Js.isDigit c = true)
    (hrest : ∀ c, rest.head? = some c → Js.isDigit c = false) :
    (ds ++ rest).takeWhile Js.isDigit = ds ∧ (ds ++ rest).dropWhile Js.isDigit = rest := by
  induction ds with
  | nil =>
    cases rest with
    | nil => simp
    | cons c t => simp [List.takeWhile, List.dropWhile, hrest c rfl]
  | cons d ds ih =>
    have hd : Js.isDigit d = true := hds d (by simp)
    have := ih (fun c hc => hds c (by simp [hc]))
    simp [List.takeWhile, List.dropWhile, hd, this]

theorem Js.startsInfinity_head (c : Char) (cs : List Char)
    (h : Js.startsInfinity (c :: cs) = true) : c = 'I' := by
  unfold Js.startsInfinity at h
  split at h
  · rename_i heq
    simp at heq
    exact heq.1
  · exact Bool.noConfusion h

theorem Js.unsignedLiteral_eq_none (cs : List Char) :
    Js.unsignedLiteral cs = none ↔ Js.startsUnsigned cs = false := by
  unfold Js.unsignedLiteral Js.startsUnsigned
  by_cases hinf : Js.startsInfinity cs = true
  · simp [hinf]
  · simp only [hinf, Bool.false_eq_true, if_false, Bool.false_or]
    cases cs with
    | nil => simp
    | cons c rest =>
      by_cases hd : Js.isDigit c = true
      · simp only [List.takeWhile, List.dropWhile, hd]
        split <;> simp
      · have hd2 : Js.isDigit c = false := by simpa using hd
        simp only [List.takeWhile, List.dropWhile, hd2]
        by_cases hdot : c = '.'
        · subst hdot
          cases rest with
          | nil => simp
          | cons d t =>
            by_cases hdd : Js.isDigit d = true
            · simp [List.takeWhile, hdd]
            · simp [List.takeWhile, hdd]
        · split
          · rename_i heq
            simp at heq
            exact absurd heq.1 hdot
          · simp [hdot]

theorem Js.Num.ofDecimal_ne_nan (neg : Bool) (mant : Nat) (exp : Int) :
    Js.Num.ofDecimal neg mant exp ≠ .nan := by
  unfold Js.Num.ofDecimal
  split <;> simp

theorem Js.signedLiteral_eq_nan (neg : Bool) (cs : List Char) :
    Js.signedLiteral neg cs = .nan ↔ Js.startsUnsigned cs = false := by
  rw [← Js.unsignedLiteral_eq_none]
  unfold Js.signedLiteral
  split <;> simp [*, Js.Num.ofDecimal_ne_nan]

theorem Js.parseFloat_eq_nan (s : String) :
    Js.parseFloat s = .nan ↔ Js.startsNumeric s = false := by
  unfold Js.parseFloat Js.startsNumeric
  split <;> simp [Js.signedLiteral_eq_nan]

theorem Js.exponentPart_expText (c : Char) (sg : Option Bool) (ds rest : List Char)
    (hc : c = 'e' ∨ c = 'E') (hne : ds ≠ []) (hds : ∀ x ∈ ds, Js.isDigit x = true)
    (hrest : ∀ x, rest.head? = some x → Js.isDigit x = false) :
    Js.exponentPart (Js.Decimal.expText (some (c, sg, ds)) ++ rest)
      = some (Js.Decimal.expValue (some (c, sg, ds))) := by
  have htd := (Js.takeWhile_digits ds rest hds hrest).1
  obtain ⟨d, ds2, rfl⟩ : ∃ d ds2, ds = d :: ds2 := by
    cases ds with
    | nil => exact absurd rfl hne
    | cons d t => exact ⟨d, t, rfl⟩
  have hd : Js.isDigit d = true := hds d (by simp)
  have hplus : d ≠ '+' := Js.isDigit_ne d '+' hd (by decide)
  have hminus : d ≠ '-' := Js.isDigit_ne d '-' hd (by decide)
  have hc2 : (decide (c = 'e') || decide (c = 'E')) = true := by
    rcases hc with h | h <;> simp [h]
  rcases sg with _ | _ | _
  · simp only [Js.Decimal.expText, Js.Decimal.signText, List.nil_append, List.cons_append,
      Js.exponentPart, hc2, if_true]
    split
    · rename_i heq
      simp at heq
      exact absurd heq.1 hplus
    · rename_i heq
      simp at heq
      exact absurd heq.1 hminus
    · rw [← List.cons_append, htd]
      simp [Js.Decimal.expValue]
  · simp only [Js.Decimal.expText, Js.Decimal.signText, List.nil_append, List.cons_append,
      Js.exponentPart, hc2, if_true]
    rw [← List.cons_append, htd]
    simp [Js.Decimal.expValue]
  · simp only [Js.Decimal.expText, Js.Decimal.signText, List.nil_append, List.cons_append,
      Js.exponentPart, hc2, if_true]
    rw [← List.cons_append, htd]
    simp [Js.Decimal.expValue]

theorem Js.startsInfinity_false (cs : List Char)
    (h : ∀ x, cs.head? = some x → x ≠ 'I') : Js.startsInfinity cs = false := by
  cases cs with
  | nil => rfl
  | cons c t =>
    cases hs : Js.startsInfinity (c :: t) with
    | false => rfl
    | true => exact absurd (Js.startsInfinity_head c t hs) (h c rfl)

theorem Js.exponentPart_tail (e : Option (Char × Option Bool × List Char)) (rest : List Char)
    (hexp : ∀ c sg ds, e = some (c, sg, ds) →
      (c = 'e' ∨ c = 'E') ∧ ds ≠ [] ∧ ∀ x ∈ ds, Js.isDigit x = true)
    (hrest : ∀ x, rest.head? = some x → Js.isDigit x = false)
    (hstop : e = none → Js.exponentPart rest = none) :
    (Js.exponentPart (Js.Decimal.expText e ++ rest)).getD 0 = Js.Decimal.expValue e ∧
    (∀ x, (Js.Decimal.expText e ++ rest).head? = some x → Js.isDigit x = false) ∧
    (e ≠ none → ∀ x, (Js.Decimal.expText e ++ rest).head? = some x → x ≠ '.') := by
  cases e with
  | none =>
    refine ⟨?_, ?_, fun h => absurd rfl h⟩
    · simp [Js.Decimal.expText, hstop rfl, Js.Decimal.expValue]
    · simpa [Js.Decimal.expText] using hrest
  | some t =>
    obtain ⟨c, sg, ds⟩ := t
    obtain ⟨hc, hne, hds⟩ := hexp c sg ds rfl
    refine ⟨?_, ?_, ?_⟩
    · rw [Js.exponentPart_expText c sg ds rest hc hne hds hrest]
      rfl
    · intro x hx
      simp [Js.Decimal.expText] at hx
      subst hx
      rcases hc with h | h <;> subst h <;> decide
    · intro _ x hx
      simp [Js.Decimal.expText] at hx
      subst hx
      rcases hc with h | h <;> subst h <;> decide

theorem Js.unsignedLiteral_body (d : Js.Decimal) (rest : List Char)
    (hwf : d.wellFormed = true) (hend : d.endsBefore rest = true) :
    Js.unsignedLiteral (d.body ++ rest) = some (some (d.mantissa, d.exponent)) := by
  obtain ⟨sign, ip, frac, e⟩ := d
  simp only [Js.Decimal.wellFormed, Bool.and_eq_true, List.all_eq_true] at hwf
  obtain ⟨⟨⟨hip, hfp⟩, hne⟩, hexpB⟩ := hwf
  simp only [Js.Decimal.endsBefore, Bool.and_eq_true] at hend
  obtain ⟨⟨hrestB, hstopB⟩, hdotB⟩ := hend
  have hrest : ∀ x, rest.head? = some x → Js.isDigit x = false := by
    intro x hx
    simpa [hx] using hrestB
  have hexp : ∀ c sg ds, e = some (c, sg, ds) →
      (c = 'e' ∨ c = 'E') ∧ ds ≠ [] ∧ ∀ x ∈ ds, Js.isDigit x = true := by
    intro c sg ds he
    subst he
    simp at hexpB
    exact ⟨hexpB.1.1, hexpB.2, hexpB.1.2⟩
  have hstop : e = none → Js.exponentPart rest = none := by
    intro he
    subst he
    simpa using hstopB
  obtain ⟨hval, hhead, hnodot⟩ := Js.exponentPart_tail e rest hexp hrest hstop
  cases frac with
  | some fp =>
    have hfp2 : ∀ x ∈ fp, Js.isDigit x = true := by simpa using hfp
    have hsplit := Js.takeWhile_digits ip ('.' :: (fp ++ (Js.Decimal.expText e ++ rest))) hip
      (by intro x hx; simp at hx; subst hx; decide)
    have hsplit2 := Js.takeWhile_digits fp (Js.Decimal.expText e ++ rest) hfp2 hhead
    have hinf : Js.startsInfinity
        (ip ++ '.' :: (fp ++ (Js.Decimal.expText e ++ rest))) = false := by
      apply Js.startsInfinity_false
      intro x hx
      cases ip with
      | nil => simp at hx; subst hx; decide
      | cons i t =>
        have hxi : i = x := by simpa using hx
        rw [← hxi]
        exact Js.isDigit_ne i 'I' (hip i (by simp)) (by decide)
    have hne2 : (ip.isEmpty && fp.isEmpty) = false := by
      cases ip <;> cases fp <;> simp_all
    have htext : Js.Decimal.body ⟨sign, ip, some fp, e⟩ ++ rest
        = ip ++ '.' :: (fp ++ (Js.Decimal.expText e ++ rest)) := by
      simp [Js.Decimal.body, Js.Decimal.fracText]
    rw [htext]
    unfold Js.unsignedLiteral
    simp only [hinf, Bool.false_eq_true, if_false, hsplit.1, hsplit.2, hsplit2.1, hsplit2.2,
      hne2, hval]
    simp [Js.Decimal.mantissa, Js.Decimal.exponent]
  | none =>
    have hipne : ip ≠ [] := by simpa using hne
    have hsplit := Js.takeWhile_digits ip (Js.Decimal.expText e ++ rest) hip hhead
    have hinf : Js.startsInfinity (ip ++ (Js.Decimal.expText e ++ rest)) = false := by
      apply Js.startsInfinity_false
      intro x hx
      cases ip with
      | nil => exact absurd rfl hipne
      | cons i t =>
        have hxi : i = x := by simpa using hx
        rw [← hxi]
        exact Js.isDigit_ne i 'I' (hip i (by simp)) (by decide)
    have htext : Js.Decimal.body ⟨sign, ip, none, e⟩ ++ rest
        = ip ++ (Js.Decimal.expText e ++ rest) := by
      simp [Js.Decimal.body, Js.Decimal.fracText]
    have hdot : ∀ x, (Js.Decimal.expText e ++ rest).head? = some x → x ≠ '.' := by
      cases e with
      | some t => exact hnodot (by simp)
      | none =>
        intro x hx
        simp [Js.Decimal.expText] at hx
        simp [hx] at hdotB
        exact hdotB
    have hipe : ip.isEmpty = false := by
      cases ip with
      | nil => exact absurd rfl hipne
      | cons i t => rfl
    rw [htext]
    unfold Js.unsignedLiteral
    simp only [hinf, Bool.false_eq_true, if_false, hsplit.1, hsplit.2]
    split
    · rename_i r heq
      exact absurd rfl (hdot '.' (by simp [heq]))
    · simp [hipe, hval, Js.Decimal.mantissa, Js.Decimal.exponent]

theorem Js.Decimal.body_head (d : Js.Decimal) (rest : List Char)
    (hwf : d.wellFormed = true) :
    ∃ b t, d.body ++ rest = b :: t ∧ (Js.isDigit b = true ∨ b = '.') := by
  obtain ⟨sign, ip, frac, e⟩ := d
  simp only [Js.Decimal.wellFormed, Bool.and_eq_true, List.all_eq_true] at hwf
  obtain ⟨⟨⟨hip, _⟩, hne⟩, _⟩ := hwf
  cases ip with
  | cons i t =>
    exact ⟨i, t ++ (Js.Decimal.fracText frac ++ (Js.Decimal.expText e ++ rest)),
      by simp [Js.Decimal.body], Or.inl (hip i (by simp))⟩
  | nil =>
    cases frac with
    | none => simp at hne
    | some fp =>
      exact ⟨'.', fp ++ (Js.Decimal.expText e ++ rest),
        by simp [Js.Decimal.body, Js.Decimal.fracText], Or.inr rfl⟩

theorem Js.dropWhile_whiteSpace (ws cs : List Char)
    (hws : ∀ c ∈ ws, Js.isWhiteSpace c = true)
    (hcs : ∀ c, cs.head? = some c → Js.isWhiteSpace c = false) :
    (ws ++ cs).dropWhile Js.isWhiteSpace = cs := by
  induction ws with
  | nil =>
    cases cs with
    | nil => rfl
    | cons c t => simp [List.dropWhile, hcs c rfl]
  | cons w ws ih =>
    have hw : Js.isWhiteSpace w = true := hws w (by simp)
    simp [List.dropWhile, hw, ih (fun c hc => hws c (by simp [hc]))]

theorem Js.parseFloat_decimal (ws : List Char) (d : Js.Decimal) (rest : List Char)
    (hws : ∀ c ∈ ws, Js.isWhiteSpace c = true)
    (hwf : d.wellFormed = true) (hend : d.endsBefore rest = true) :
    Js.parseFloat ⟨ws ++ (d.text ++ rest)⟩ = d.number := by
  have hbody := Js.unsignedLiteral_body d rest hwf hend
  obtain ⟨b, t, hbt, hb⟩ := Js.Decimal.body_head d rest hwf
  have hwsb : Js.isWhiteSpace b = false := by
    rcases hb with h | h
    · exact Js.isDigit_not_ws b h
    · subst h; decide
  have hminus : b ≠ '-' := by
    rcases hb with h | h
    · exact Js.isDigit_ne b '-' h (by decide)
    · subst h; decide
  have hplus : b ≠ '+' := by
    rcases hb with h | h
    · exact Js.isDigit_ne b '+' h (by decide)
    · subst h; decide
  unfold Js.parseFloat
  rcases hs : d.sign with _ | _ | _
  · have htext : d.text ++ rest = b :: t := by
      simp [Js.Decimal.text, Js.Decimal.signText, hs, hbt]
    have hdrop := Js.dropWhile_whiteSpace ws (b :: t) hws
      (by intro c hc; simp at hc; rw [← hc]; exact hwsb)
    simp only [htext, hdrop]
    split
    · rename_i heq
      simp at heq
      exact absurd heq.1 hminus
    · rename_i heq
      simp at heq
      exact absurd heq.1 hplus
    · rw [← hbt]
      simp [Js.signedLiteral, hbody, Js.Decimal.number, Js.Decimal.negative, hs]
  · have htext : d.text ++ rest = '+' :: (d.body ++ rest) := by
      simp [Js.Decimal.text, Js.Decimal.signText, hs]
    have hdrop := Js.dropWhile_whiteSpace ws ('+' :: (d.body ++ rest)) hws
      (by intro c hc; simp at hc; rw [← hc]; decide)
    simp only [htext, hdrop]
    simp [Js.signedLiteral, hbody, Js.Decimal.number, Js.Decimal.negative, hs]
  · have htext : d.text ++ rest = '-' :: (d.body ++ rest) := by
      simp [Js.Decimal.text, Js.Decimal.signText, hs]
    have hdrop := Js.dropWhile_whiteSpace ws ('-' :: (d.body ++ rest)) hws
      (by intro c hc; simp at hc; rw [← hc]; decide)
    simp only [htext, hdrop]
    simp [Js.signedLiteral, hbody, Js.Decimal.number, Js.Decimal.negative, hs]

theorem Api.Headers.get_set (h : Api.Headers) (k v : String) :
    (h.set k v).get k = some v := by
  induction h with
  | nil => simp [Api.Headers.set, Api.Headers.get]
  | cons p t ih =>
    unfold Api.Headers.set
    by_cases hp : (p.1 == k) = true
    · simp [hp, Api.Headers.get]
    · simp only [hp]
      simp only [Api.Headers.get] at ih ⊢
      simp [List.find?, hp, ih]

theorem Api.Headers.get_delete (h : Api.Headers) (k : String) :
    (h.delete k).get k = none := by
  simp [Api.Headers.delete, Api.Headers.get, List.find?_eq_none]

/-- C1: `setAuthToken(null)` leaves no `Authorization` property among the default headers, and
`setAuthToken(t)` with a non-empty string `t` makes it `"Bearer " ++ t`, whatever the headers were
before. -/
theorem C1_setAuthToken (common : Api.Headers) :
    (Api.setAuthToken common none).get "Authorization" = none ∧
    (∀ p ∈ Api.setAuthToken common none, p.1 ≠ "Authorization") ∧
    ∀ t : String, t ≠ "" →
      (Api.setAuthToken common (some t)).get "Authorization" = some ("Bearer " ++ t) := by
  refine ⟨?_, ?_, ?_⟩
  · simp [Api.setAuthToken, Js.truthy, Api.Headers.get_delete]
  · intro p hp
    simp [Api.setAuthToken, Js.truthy, Api.Headers.delete] at hp
    exact hp.2
  · intro t ht
    simp [Api.setAuthToken, Js.truthy, Js.truthyStr, ht, Api.Headers.get_set]

theorem C1_setAuthToken_witness :
    (Api.setAuthToken [("Authorization", "Bearer old")] none).get "Authorization" = none ∧
    (Api.setAuthToken [("Authorization", "Bearer old")] (some "tok")).get "Authorization"
      = some "Bearer tok" :=
  ⟨(C1_setAuthToken _).1, (C1_setAuthToken _).2.2 "tok" (by decide)⟩

theorem Dashboard.run_append (s : Dashboard.State) (es fs : List Dashboard.Effect) :
    Dashboard.run s (es ++ fs) = Dashboard.run (Dashboard.run s es) fs := by
  simp [Dashboard.run, List.foldl_append]

/-- C2: when `handleChat` is invoked on a state whose input is non-blank after trimming and with
no chat call pending, the steps run before the network call resolves make the message list
`M ++ [user entry]` and issue the `/chat` request, and when the call succeeds the handler ends
with the list `M ++ [user entry, assistant entry]`, the assistant entry carrying the content of
the message of the response. -/
theorem C2_handleChat_messages (s : Dashboard.State)
    (hinput : Js.trim s.input ≠ "") (hidle : s.loading = false) :
    (Dashboard.run s (Dashboard.handleChatSync s)).messages
      = s.messages ++ [⟨.user, Js.trim s.input⟩] ∧
    (Dashboard.run s (Dashboard.handleChatSync s)).requests
      = s.requests ++ [Api.chat (s.messages ++ [⟨.user, Js.trim s.input⟩])] ∧
    ∀ (r : Dashboard.ChatResponse) (me : Api.Outcome Api.Profile),
      Dashboard.handleChat s (.resolved r) me
        = Dashboard.handleChatSync s ++ Dashboard.handleChatSettled (.resolved r) me ∧
      (Dashboard.run s (Dashboard.handleChat s (.resolved r) me)).messages
        = s.messages ++ [⟨.user, Js.trim s.input⟩, ⟨.assistant, r.message.content⟩] := by
  have hgo : Dashboard.chatReturnsEarly s = false := by
    simp [Dashboard.chatReturnsEarly, Js.truthyStr, hinput, hidle]
  refine ⟨?_, ?_, ?_⟩
  · simp [Dashboard.handleChatSync, hgo, Dashboard.run, Dashboard.step, Dashboard.userMsg]
  · simp [Dashboard.handleChatSync, hgo, Dashboard.run, Dashboard.step, Dashboard.userMsg]
  · intro r me
    refine ⟨by simp [Dashboard.handleChat, hgo], ?_⟩
    cases me <;>
      simp [Dashboard.handleChat, Dashboard.handleChatSync, Dashboard.handleChatSettled,
        Dashboard.refreshProfile, hgo, Dashboard.run, Dashboard.step, Dashboard.userMsg]

theorem C2_handleChat_messages_witness :
    (Dashboard.run { Dashboard.State.init none with input := " hi " }
        (Dashboard.handleChat { Dashboard.State.init none with input := " hi " }
          (.resolved ⟨⟨.assistant, "hello"⟩⟩) (.resolved ⟨30⟩))).messages
      = [⟨.user, "hi"⟩, ⟨.assistant, "hello"⟩] :=
  ((C2_handleChat_messages { Dashboard.State.init none with input := " hi " }
    (by decide) rfl).2.2 ⟨⟨.assistant, "hello"⟩⟩ (.resolved ⟨30⟩)).2

/-- C3: a chat or upload call that succeeds is followed by exactly one `getMe`, issued right
after the result has been stored (the assistant entry appended; the summary set and the file
cleared); a chat or upload call that fails is followed by none; `handleScore` never issues one,
whether its call succeeds or fails. -/
theorem C3_profile_refresh (s : Dashboard.State) (me : Api.Outcome Api.Profile) :
    (∀ r : Dashboard.ChatResponse, Dashboard.chatReturnsEarly s = false →
      (Dashboard.handleChat s (.resolved r) me).count (.request Api.getMe) = 1 ∧
      ∃ pre post, Dashboard.Effect.request Api.getMe ∉ pre ∧
        Dashboard.handleChat s (.resolved r) me
          = pre ++ [.appendMessage ⟨.assistant, r.message.content⟩, .request Api.getMe] ++ post) ∧
    (∀ r : Dashboard.UploadResponse, Dashboard.uploadReturnsEarly s = false →
      (Dashboard.handleUpload s (.resolved r) me).count (.request Api.getMe) = 1 ∧
      ∃ pre post, Dashboard.Effect.request Api.getMe ∉ pre ∧
        Dashboard.handleUpload s (.resolved r) me
          = pre ++ [.setUploadSummary (some r.summary), .setFile none, .request Api.getMe]
              ++ post) ∧
    (∀ err : Api.ApiError,
      (Dashboard.handleChat s (.rejected err) me).count (.request Api.getMe) = 0 ∧
      (Dashboard.handleUpload s (.rejected err) me).count (.request Api.getMe) = 0) ∧
    (∀ res : Api.Outcome Dashboard.ScoreResult,
      (Dashboard.handleScore s res).count (.request Api.getMe) = 0) := by
  refine ⟨?_, ?_, ?_, ?_⟩
  · intro r hgo
    constructor
    · cases me <;>
        simp [Dashboard.handleChat, Dashboard.handleChatSync, Dashboard.handleChatSettled,
          Dashboard.refreshProfile, hgo, List.count_cons, Api.getMe, Api.chat]
    · cases me with
      | resolved data =>
        refine ⟨Dashboard.handleChatSync s, [.setProfile (some data), .setLoading false],
          ?_, ?_⟩
        · simp [Dashboard.handleChatSync, hgo, Api.getMe, Api.chat]
        · simp [Dashboard.handleChat, Dashboard.handleChatSettled, Dashboard.refreshProfile,
            hgo]
      | rejected e =>
        refine ⟨Dashboard.handleChatSync s, [.setLoading false], ?_, ?_⟩
        · simp [Dashboard.handleChatSync, hgo, Api.getMe, Api.chat]
        · simp [Dashboard.handleChat, Dashboard.handleChatSettled, Dashboard.refreshProfile,
            hgo]
  · intro r hgo
    have hfile : ∃ f, s.file = some f ∧ s.uploadLoading = false := by
      cases hf : s.file with
      | none => simp [Dashboard.uploadReturnsEarly, hf] at hgo
      | some f => exact ⟨f, rfl, by simpa [Dashboard.uploadReturnsEarly, hf] using hgo⟩
    obtain ⟨f, hf, hl⟩ := hfile
    constructor
    · cases me <;>
        simp [Dashboard.handleUpload, Dashboard.handleUploadSync, Dashboard.handleUploadSettled,
          Dashboard.refreshProfile, hgo, hf, hl, List.count_cons, Api.getMe, Api.uploadFile]
    · cases me with
      | resolved data =>
        refine ⟨Dashboard.handleUploadSync s,
          [.setProfile (some data), .setUploadLoading false], ?_, ?_⟩
        · simp [Dashboard.handleUploadSync, hf, hl, Api.getMe, Api.uploadFile]
        · simp [Dashboard.handleUpload, Dashboard.handleUploadSettled,
            Dashboard.refreshProfile, hgo]
      | rejected e =>
        refine ⟨Dashboard.handleUploadSync s, [.setUploadLoading false], ?_, ?_⟩
        · simp [Dashboard.handleUploadSync, hf, hl, Api.getMe, Api.uploadFile]
        · simp [Dashboard.handleUpload, Dashboard.handleUploadSettled,
            Dashboard.refreshProfile, hgo]
  · intro err
    constructor
    · by_cases hgo : Dashboard.chatReturnsEarly s = true
      · simp [Dashboard.handleChat, hgo]
      · simp [Dashboard.handleChat, Dashboard.handleChatSync, Dashboard.handleChatSettled, hgo,
          List.count_cons, Api.getMe, Api.chat]
    · by_cases hgo : Dashboard.uploadReturnsEarly s = true
      · simp [Dashboard.handleUpload, hgo]
      · cases hf : s.file with
        | none => simp [Dashboard.uploadReturnsEarly, hf] at hgo
        | some f =>
          have hl : s.uploadLoading = false := by
            simpa [Dashboard.uploadReturnsEarly, hf] using hgo
          simp [Dashboard.handleUpload, Dashboard.handleUploadSync,
            Dashboard.handleUploadSettled, hgo, hf, hl, List.count_cons, Api.getMe,
            Api.uploadFile]
  · intro res
    cases res <;>
      simp [Dashboard.handleScore, Dashboard.handleScoreSync, Dashboard.handleScoreSettled,
        List.count_cons, Api.getMe, Dashboard.scoreRequest, Api.zentraScore]

theorem C3_profile_refresh_witness :
    (Dashboard.handleChat { Dashboard.State.init none with input := "hi" }
        (.resolved ⟨⟨.assistant, "hello"⟩⟩) (.resolved ⟨30⟩)).count (.request Api.getMe) = 1 ∧
    (Dashboard.handleUpload { Dashboard.State.init none with file := some ⟨"a.pdf"⟩ }
        (.resolved ⟨"summary"⟩) (.resolved ⟨30⟩)).count (.request Api.getMe) = 1 :=
  ⟨((C3_profile_refresh { Dashboard.State.init none with input := "hi" } (.resolved ⟨30⟩)).1
      ⟨⟨.assistant, "hello"⟩⟩ (by decide)).1,
   ((C3_profile_refresh { Dashboard.State.init none with file := some ⟨"a.pdf"⟩ }
      (.resolved ⟨30⟩)).2.1 ⟨"summary"⟩ (by decide)).1⟩

/-- C5: once `loading` is false, following the redirects of the route table from any path ends
within two lookups, whatever paths the router matches beyond `/` and `/login`, and renders one
view: the dashboard exactly when a user is present, the login view exactly when none is. -/
theorem C5_route_gating (matcher : String → App.RouteId)
    (hroot : matcher "/" = .root) (hlogin : matcher "/login" = .login)
    (s : App.State) (hloaded : s.loading = false) (path : String)
    (fuel : Nat) (hfuel : 2 ≤ fuel) :
    ∃ v, App.render matcher s fuel path = some (.view v) ∧
      (v = .dashboard ↔ s.user.isSome = true) ∧ (v = .login ↔ s.user = none) := by
  obtain ⟨n, rfl⟩ : ∃ n, fuel = n + 2 := ⟨fuel - 2, by omega⟩
  cases hu : s.user with
  | none =>
    refine ⟨.login, ?_, by simp, by simp⟩
    cases hm : matcher path <;>
      simp [App.render, App.resolve, App.routeElement, hloaded, hu, hm, hlogin]
  | some u =>
    refine ⟨.dashboard, ?_, by simp, by simp⟩
    cases hm : matcher path <;>
      simp [App.render, App.resolve, App.routeElement, hloaded, hu, hm, hroot]

theorem C5_route_gating_witness :
    ∃ v, App.render App.matchRoute
        { App.State.init [] with loading := false, user := some ⟨"u1"⟩ } 2 "/settings"
          = some (.view v) ∧
      (v = .dashboard ↔
        ({ App.State.init [] with loading := false, user := some ⟨"u1"⟩ } : App.State).user.isSome
          = true) ∧
      (v = .login ↔
        ({ App.State.init [] with loading := false, user := some ⟨"u1"⟩ } : App.State).user
          = none) :=
  C5_route_gating App.matchRoute (by decide) (by decide)
    { App.State.init [] with loading := false, user := some ⟨"u1"⟩ } rfl "/settings" 2
    (by decide)

theorem Api.setAuthToken_get (h : Api.Headers) (token : Option String) :
    (Api.setAuthToken h token).get "Authorization"
      = if Js.truthy token then some ("Bearer " ++ token.getD "") else none := by
  unfold Api.setAuthToken
  split
  · exact Api.Headers.get_set _ _ _
  · exact Api.Headers.get_delete _ _

theorem App.header_onAuthStateChangeSync (s : App.State) (session : Option App.Session) :
    (App.run s (App.onAuthStateChangeSync session)).headers.get "Authorization"
      = App.headerFor session := by
  cases session with
  | none =>
    simp [App.onAuthStateChangeSync, App.run, App.step, App.headerFor, App.accessToken,
      Api.setAuthToken_get, Js.truthy]
  | some sess =>
    by_cases ht : Js.truthy sess.access_token = true
    · simp [App.onAuthStateChangeSync, App.run, App.step, App.headerFor, App.accessToken,
        Api.setAuthToken_get, ht]
    · have hn : Js.truthy none = false := rfl
      simp [App.onAuthStateChangeSync, App.run, App.step, App.headerFor, App.accessToken,
        Api.setAuthToken_get, ht, hn]

theorem App.header_getSessionThen (s : App.State) (session : Option App.Session) :
    (App.run s (App.getSessionThen session)).headers.get "Authorization"
      = if Js.truthy (App.accessToken session) then App.headerFor session
        else s.headers.get "Authorization" := by
  cases session with
  | none => simp [App.getSessionThen, App.run, App.step, App.accessToken, Js.truthy]
  | some sess =>
    by_cases ht : Js.truthy sess.access_token = true
    · simp [App.getSessionThen, App.run, App.step, App.headerFor, App.accessToken,
        Api.setAuthToken_get, ht]
    · simp [App.getSessionThen, App.run, App.step, App.accessToken, ht]

theorem App.header_settled (s : App.State) (me : Api.Outcome Api.Profile) :
    (App.run s (App.onAuthStateChangeSettled me)).headers = s.headers ∧
    (App.run s (App.getSessionMeSettled me)).headers = s.headers := by
  cases me <;>
    simp [App.onAuthStateChangeSettled, App.getSessionMeSettled, App.run, App.step]

theorem App.header_process (evs : List App.Event) (s : App.State) :
    (App.process s evs).headers.get "Authorization"
      = match App.lastBinding evs with
        | some session => App.headerFor session
        | none => s.headers.get "Authorization" := by
  induction evs generalizing s with
  | nil => simp [App.process, App.lastBinding]
  | cons ev evs ih =>
    have hstep : App.process s (ev :: evs) = App.process (App.run s (App.handle ev)) evs := by
      simp [App.process]
    rw [hstep, ih]
    have hlast : App.lastBinding (ev :: evs)
        = (App.lastBinding evs).or (App.Event.binding ev) := by
      cases hb : App.Event.binding ev <;>
        simp [App.lastBinding, List.findSome?_append, List.findSome?, hb]
    rw [hlast]
    cases hb : App.lastBinding evs with
    | some session => simp
    | none =>
      cases ev with
      | authStateChange session =>
        simp [App.Event.binding, App.handle, App.header_onAuthStateChangeSync]
      | getSession session =>
        by_cases ht : Js.truthy (App.accessToken session) = true
        · simp [App.Event.binding, App.handle, App.header_getSessionThen, ht]
        · simp [App.Event.binding, App.handle, App.header_getSessionThen, ht]
      | authStateChangeMe me =>
        simp [App.Event.binding, App.handle, (App.header_settled s me).1]
      | getSessionMe me =>
        simp [App.Event.binding, App.handle, (App.header_settled s me).2]

theorem App.process_append (s : App.State) (evs : List App.Event) (ev : App.Event) :
    App.process s (evs ++ [ev]) = App.run (App.process s evs) (App.handle ev) := by
  simp [App.process, List.foldl_append]

/-- The header follows the session acted on last: from a state without an `Authorization`
header, after every sequence of events the header is the one for the session of the most recent
listener callback or token-carrying `getSession` resolution (absent when there is none), and a
`getSession` resolution without a token leaves the header as it was. -/
theorem App.header_follows_binding (common : Api.Headers)
    (hno : common.get "Authorization" = none) (evs : List App.Event) :
    ((App.process (App.State.init common) evs).headers.get "Authorization"
      = match App.lastBinding evs with
        | some session => App.headerFor session
        | none => none) ∧
    (∀ session, Js.truthy (App.accessToken session) = false →
      (App.process (App.State.init common) (evs ++ [.getSession session])).headers.get
          "Authorization"
        = (App.process (App.State.init common) evs).headers.get "Authorization") ∧
    (App.lastObserved evs = App.lastBinding evs →
      (App.process (App.State.init common) evs).headers.get "Authorization"
        = match App.lastObserved evs with
          | some session => App.headerFor session
          | none => none) := by
  have hmain := App.header_process evs (App.State.init common)
  have hinit : (App.State.init common).headers.get "Authorization" = none := hno
  rw [hinit] at hmain
  refine ⟨hmain, ?_, ?_⟩
  · intro session ht
    rw [App.process_append]
    simp [App.handle, App.header_getSessionThen, ht]
  · intro h
    rw [h]
    exact hmain

/-- C8: from the initial state, after a listener callback with the token `a` and then a
`getSession` resolution with no session, the session observed last is absent but the header is
still `Bearer a` (and `user` is still set); had the listener observed the absent session instead,
the header would be gone. -/
theorem C8_stale_header :
    (App.process (App.State.init [])
        [.authStateChange (some ⟨some "a", ⟨"u1"⟩⟩), .getSession none]).headers.get
        "Authorization" = some "Bearer a" ∧
    (App.process (App.State.init [])
        [.authStateChange (some ⟨some "a", ⟨"u1"⟩⟩), .getSession none]).user = some ⟨"u1"⟩ ∧
    App.lastObserved [.authStateChange (some ⟨some "a", ⟨"u1"⟩⟩), .getSession none]
      = some none ∧
    App.headerFor none = none ∧
    (App.process (App.State.init [])
        [.authStateChange (some ⟨some "a", ⟨"u1"⟩⟩), .authStateChange none]).headers.get
        "Authorization" = none := by
  refine ⟨by decide, by decide, by decide, by decide, by decide⟩

/-- C9: when the listener is called with an absent session, or one without an access token, it
runs to its end without awaiting anything and issues no request; afterwards the `Authorization`
header is removed, `user` and `profile` are `null` and `loading` is false, whatever the state was
before. -/
theorem C9_sign_out (s : App.State) (session : Option App.Session)
    (me : Api.Outcome Api.Profile) (hno : Js.truthy (App.accessToken session) = false) :
    App.onAuthStateChange session me = App.onAuthStateChangeSync session ∧
    (∀ r, App.Effect.request r ∉ App.onAuthStateChange session me) ∧
    (App.run s (App.onAuthStateChange session me)).headers.get "Authorization" = none ∧
    (App.run s (App.onAuthStateChange session me)).user = none ∧
    (App.run s (App.onAuthStateChange session me)).profile = none ∧
    (App.run s (App.onAuthStateChange session me)).loading = false ∧
    (App.run s (App.onAuthStateChange session me)).requests = s.requests := by
  have hn : Js.truthy none = false := rfl
  have hlist : App.onAuthStateChange session me
      = [.setAuthToken none, .setUser none, .setProfile none, .setLoading false] := by
    cases session with
    | none => simp [App.onAuthStateChange, App.onAuthStateChangeSync, App.accessToken, hn]
    | some sess =>
      have ht : Js.truthy sess.access_token = false := by simpa [App.accessToken] using hno
      simp [App.onAuthStateChange, App.onAuthStateChangeSync, App.accessToken, ht]
  refine ⟨by simp [App.onAuthStateChange, hno], ?_, ?_, ?_, ?_, ?_, ?_⟩
  · intro r
    simp [hlist]
  · simp [hlist, App.run, App.step, Api.setAuthToken_get, hn]
  · simp [hlist, App.run, App.step]
  · simp [hlist, App.run, App.step]
  · simp [hlist, App.run, App.step]
  · simp [hlist, App.run, App.step]

theorem C9_sign_out_witness :
    (App.run
      { headers := [("Authorization", "Bearer a")], user := some ⟨"u1"⟩, profile := some ⟨40⟩,
        loading := true, requests := [.get "/me"] }
      (App.onAuthStateChange none (.resolved ⟨40⟩))).headers.get "Authorization" = none :=
  (C9_sign_out _ none (.resolved ⟨40⟩) rfl).2.2.1

/-- C10 (refuted as stated): when the `getMe` of `refreshProfile` fails while the profile holds
40 credits, the profile still holds 40 credits afterwards; it is not `null`. -/
theorem C10_counterexample :
    (Dashboard.run (Dashboard.State.init (some ⟨40⟩))
        (Dashboard.refreshProfile (.rejected ⟨"Network Error", none⟩))).profile = some ⟨40⟩ ∧
    (Dashboard.run (Dashboard.State.init (some ⟨40⟩))
        (Dashboard.refreshProfile (.rejected ⟨"Network Error", none⟩))).profile ≠ none := by
  refine ⟨by decide, by decide⟩

/-- C10 (amended): a failed `GET /me` in the listener callback and in the `getSession` path sets
the profile to `null`; a failed `getMe` in `refreshProfile` is swallowed and changes nothing but
the request log, so the profile keeps its previous value; a chat or upload that succeeded then
still runs to its end, with its pending flag reset. -/
theorem C10_profile_fetch_failure (err : Api.ApiError) :
    (∀ (s : App.State) (session : Option App.Session),
      Js.truthy (App.accessToken session) = true →
      (App.run s (App.onAuthStateChange session (.rejected err))).profile = none) ∧
    (∀ s : App.State, (App.run s (App.getSessionMeSettled (.rejected err))).profile = none) ∧
    (∀ s : Dashboard.State,
      Dashboard.run s (Dashboard.refreshProfile (.rejected err))
        = { s with requests := s.requests ++ [Api.getMe] }) ∧
    (∀ (s : Dashboard.State) (r : Dashboard.ChatResponse),
      (Dashboard.run s (Dashboard.handleChatSettled (.resolved r) (.rejected err))).profile
          = s.profile ∧
      (Dashboard.run s (Dashboard.handleChatSettled (.resolved r) (.rejected err))).loading
          = false) ∧
    (∀ (s : Dashboard.State) (r : Dashboard.UploadResponse),
      (Dashboard.run s (Dashboard.handleUploadSettled (.resolved r) (.rejected err))).profile
          = s.profile ∧
      (Dashboard.run s (Dashboard.handleUploadSettled (.resolved r) (.rejected err))).uploadLoading
          = false) := by
  refine ⟨?_, ?_, ?_, ?_, ?_⟩
  · intro s session ht
    cases session with
    | none => simp [App.accessToken, Js.truthy] at ht
    | some sess =>
      have ht2 : Js.truthy sess.access_token = true := by simpa [App.accessToken] using ht
      simp [App.onAuthStateChange, App.onAuthStateChangeSync, App.onAuthStateChangeSettled,
        App.accessToken, ht2, App.run, App.step]
  · intro s
    simp [App.getSessionMeSettled, App.run, App.step]
  · intro s
    simp [Dashboard.refreshProfile, Dashboard.run, Dashboard.step]
  · intro s r
    simp [Dashboard.handleChatSettled, Dashboard.refreshProfile, Dashboard.run, Dashboard.step]
  · intro s r
    simp [Dashboard.handleUploadSettled, Dashboard.refreshProfile, Dashboard.run,
      Dashboard.step]

theorem C10_profile_fetch_failure_witness :
    (App.run (App.State.init [])
      (App.onAuthStateChange (some ⟨some "a", ⟨"u1"⟩⟩)
        (.rejected ⟨"Network Error", none⟩))).profile = none :=
  (C10_profile_fetch_failure ⟨"Network Error", none⟩).1 (App.State.init [])
    (some ⟨some "a", ⟨"u1"⟩⟩) (by decide)

theorem Js.Decimal.endsBefore_nil (d : Js.Decimal) : d.endsBefore [] = true := by
  simp [Js.Decimal.endsBefore, Js.exponentPart]

theorem Js.parseFloat_infinity (ws : List Char) (sg : Option Bool) (rest : List Char)
    (hws : ∀ c ∈ ws, Js.isWhiteSpace c = true) :
    Js.parseFloat ⟨ws ++ (Js.Decimal.signText sg ++ ("Infinity".data ++ rest))⟩
      = .infinity (sg == some true) := by
  have hinf : Js.unsignedLiteral ("Infinity".data ++ rest) = some none := by
    simp [Js.unsignedLiteral, Js.startsInfinity]
  unfold Js.parseFloat
  rcases sg with _ | _ | _
  · have hdrop := Js.dropWhile_whiteSpace ws ("Infinity".data ++ rest) hws
      (by intro c hc; simp at hc; rw [← hc]; decide)
    simp only [Js.Decimal.signText, List.nil_append, hdrop]
    simp [Js.signedLiteral, Js.unsignedLiteral, Js.startsInfinity]
  · generalize "Infinity".data ++ rest = body at hinf ⊢
    have hdrop := Js.dropWhile_whiteSpace ws ('+' :: body) hws
      (by intro c hc; simp at hc; rw [← hc]; decide)
    simp only [Js.Decimal.signText, List.cons_append, List.nil_append, hdrop]
    simp [Js.signedLiteral, hinf]
  · generalize "Infinity".data ++ rest = body at hinf ⊢
    have hdrop := Js.dropWhile_whiteSpace ws ('-' :: body) hws
      (by intro c hc; simp at hc; rw [← hc]; decide)
    simp only [Js.Decimal.signText, List.cons_append, List.nil_append, hdrop]
    simp [Js.signedLiteral, hinf]

theorem Js.searchLog2_hit (n d : Nat) (fuel : Nat) (lo : Int) :
    Js.searchLog2 n d fuel lo = lo ∨ Js.geTwoPow n d (Js.searchLog2 n d fuel lo) = true := by
  induction fuel generalizing lo with
  | zero => exact Or.inl rfl
  | succ fuel ih =>
    unfold Js.searchLog2
    split
    · rename_i h
      rcases ih (lo + ((1 <<< fuel : Nat) : Int)) with h1 | h1
      · right
        rw [h1]
        exact h
      · exact Or.inr h1
    · exact ih lo

theorem Js.floorLog2_nat_le (n : Nat) (hn : n < 2 ^ 53) : Js.floorLog2 n 1 ≤ 52 := by
  unfold Js.floorLog2
  rcases Js.searchLog2_hit n 1 12 (-1075) with h | h
  · rw [h]; omega
  · by_contra hgt
    have hk : (53 : Int) ≤ Js.searchLog2 n 1 12 (-1075) := by omega
    generalize Js.searchLog2 n 1 12 (-1075) = k at h hk
    have hk0 : 0 ≤ k := by omega
    simp only [Js.geTwoPow, hk0, if_true, decide_eq_true_eq, Nat.shiftLeft_eq, one_mul] at h
    have h53 : 53 ≤ k.toNat := by omega
    have : 2 ^ 53 ≤ 2 ^ k.toNat := Nat.pow_le_pow_right (by norm_num) h53
    omega

theorem Js.roundDouble_nat_exact (n : Nat) (hn : n < 2 ^ 53) :
    ∃ m q, Js.roundDouble n 1 = some (m, q) ∧ (m : ℚ) * 2 ^ q = n := by
  by_cases h0 : n = 0
  · subst h0
    exact ⟨0, -1074, by simp [Js.roundDouble], by simp⟩
  · have hle := Js.floorLog2_nat_le n hn
    unfold Js.roundDouble
    simp only [h0, if_false]
    generalize hq : max (Js.floorLog2 n 1 - 52) (-1074) = q
    have hq0 : q ≤ 0 := by rw [← hq]; omega
    obtain ⟨k, rfl⟩ : ∃ k : ℕ, q = -(k : ℤ) := ⟨(-q).toNat, by omega⟩
    have hden : (if 0 ≤ -(k : ℤ) then 1 <<< (-(k : ℤ)).toNat else 1) = 1 := by
      split
      · have : (-(k : ℤ)).toNat = 0 := by omega
        rw [this]; rfl
      · rfl
    have hnum : (if 0 ≤ -(k : ℤ) then n else n <<< (- -(k : ℤ)).toNat) = n * 2 ^ k := by
      split
      · have : k = 0 := by omega
        subst this; simp
      · simp [Nat.shiftLeft_eq]
    simp only [hden, hnum, Nat.mod_one, Nat.div_one, Nat.mul_zero, Nat.lt_irrefl, false_or,
      Nat.zero_ne_one, false_and, if_false]
    have hpow : ((2 : ℚ) ^ k) * 2 ^ (-(k : ℤ)) = 1 := by
      rw [zpow_neg, zpow_natCast]
      field_simp
    by_cases hc : n * 2 ^ k = 2 ^ 53
    · refine ⟨2 ^ 52, -(k : ℤ) + 1, ?_, ?_⟩
      · have h971 : ¬ (971 < -(k : ℤ) + 1) := by omega
        simp [hc, h971]
      · have hn2 : (n : ℚ) * 2 ^ k = 2 ^ 53 := by exact_mod_cast hc
        have : (2 : ℚ) ^ (-(k : ℤ) + 1) = 2 ^ (-(k : ℤ)) * 2 := by
          rw [zpow_add₀ (by norm_num : (2 : ℚ) ≠ 0)]; simp
        push_cast
        rw [this]
        calc (2 : ℚ) ^ 52 * (2 ^ (-(k : ℤ)) * 2) = 2 ^ 53 * 2 ^ (-(k : ℤ)) := by ring
          _ = (n : ℚ) * 2 ^ k * 2 ^ (-(k : ℤ)) := by rw [hn2]
          _ = n * (2 ^ k * 2 ^ (-(k : ℤ))) := by ring
          _ = n := by rw [hpow]; ring
    · refine ⟨n * 2 ^ k, -(k : ℤ), ?_, ?_⟩
      · have h971 : ¬ (971 < -(k : ℤ)) := by omega
        have hc2 : ¬ n * 2 ^ k = 9007199254740992 := by
          intro h
          exact hc (by rw [h]; norm_num)
        simp [hc2, h971]
      · push_cast
        calc (n : ℚ) * 2 ^ k * 2 ^ (-(k : ℤ)) = n * (2 ^ k * 2 ^ (-(k : ℤ))) := by ring
          _ = n := by rw [hpow]; ring

theorem Js.Decimal.number_nat_exact (ip : List Char) (hne : ip ≠ [])
    (hip : ∀ c ∈ ip, Js.isDigit c = true) (hlt : Js.digitsVal ip < 2 ^ 53) :
    (Js.Decimal.mk none ip none none).wellFormed = true ∧
    (Js.Decimal.mk none ip none none).text = ip ∧
    ∃ m q, (Js.Decimal.mk none ip none none).number = .finite false m q ∧
      (m : ℚ) * 2 ^ q = Js.digitsVal ip := by
  refine ⟨?_, ?_, ?_⟩
  · cases ip with
    | nil => exact absurd rfl hne
    | cons c t => simpa [Js.Decimal.wellFormed] using hip
  · simp [Js.Decimal.text, Js.Decimal.signText, Js.Decimal.body, Js.Decimal.fracText,
      Js.Decimal.expText]
  · obtain ⟨m, q, hr, hv⟩ := Js.roundDouble_nat_exact (Js.digitsVal ip) hlt
    refine ⟨m, q, ?_, hv⟩
    simp [Js.Decimal.number, Js.Decimal.negative, Js.Decimal.mantissa, Js.Decimal.exponent,
      Js.Decimal.expValue, Js.Num.ofDecimal, hr]

set_option exponentiation.threshold 1024 in
/-- Rounding and overflow of `parseFloat`: `1e400` is `Infinity`, the integer `2 ^ 53 + 1` is
read as the double `2 ^ 53`, `0.1` is the double `7205759403792794 * 2 ^ (-56)`, and `5e-324` is
the least positive double. -/
theorem Js.parseFloat_rounds :
    Js.parseFloat "1e400" = .infinity false ∧
    Js.parseFloat "9007199254740993" = Js.parseFloat "9007199254740992" ∧
    Js.parseFloat "9007199254740992" = .finite false (2 ^ 52) 1 ∧
    Js.parseFloat "0.1" = .finite false 7205759403792794 (-56) ∧
    Js.parseFloat "5e-324" = .finite false 1 (-1074) ∧
    Js.parseFloat "12" = .finite false (12 * 2 ^ 49) (-49) := by
  refine ⟨by decide, by decide, by decide, by decide, by decide, by decide⟩

/-- C4: whatever the four form strings and the pending flag, `handleScore` issues the
`/zentra-score` request, with the four numbers `parseFloat(field) || 0`.  A field that is empty,
or that does not start as a number does, is sent as 0.  A field that is a number (at most one
sign, digits, optional fraction, optional exponent), also after white space, is sent as its
numeric value, the nearest double, a zero being sent as 0; and `Infinity` is sent as it is.  So
every value that a field of the form can hold is sent as 0 when it is empty and as its numeric
value when it is a number; a field of digits whose value is below `2 ^ 53` is sent as exactly
that integer. -/
theorem C4_handleScore_fields (s : Dashboard.State) :
    ((Dashboard.run s (Dashboard.handleScoreSync s)).requests
      = s.requests ++ [Api.zentraScore (Dashboard.scoreField s.scoreInputs.income)
          (Dashboard.scoreField s.scoreInputs.expenses)
          (Dashboard.scoreField s.scoreInputs.savings)
          (Dashboard.scoreField s.scoreInputs.debt)]) ∧
    (∀ res, Dashboard.handleScore s res
      = Dashboard.handleScoreSync s ++ Dashboard.handleScoreSettled res) ∧
    Dashboard.scoreField "" = Js.Num.zero ∧
    (∀ field : String, Js.startsNumeric field = false →
      Dashboard.scoreField field = Js.Num.zero) ∧
    (∀ (ws : List Char) (d : Js.Decimal),
      (∀ c ∈ ws, Js.isWhiteSpace c = true) → d.wellFormed = true →
      Dashboard.scoreField ⟨ws ++ d.text⟩
        = if d.number.falsy = true then Js.Num.zero else d.number) ∧
    (∀ (ws : List Char) (sg : Option Bool) (rest : List Char),
      (∀ c ∈ ws, Js.isWhiteSpace c = true) →
      Dashboard.scoreField ⟨ws ++ (Js.Decimal.signText sg ++ ("Infinity".data ++ rest))⟩
        = .infinity (sg == some true)) ∧
    (∀ field : String, Dashboard.numberInputValue field →
      (field = "" ∧ Dashboard.scoreField field = Js.Num.zero) ∨
      ∃ d : Js.Decimal, d.wellFormed = true ∧ field = ⟨d.text⟩ ∧
        Dashboard.scoreField field
          = if d.number.falsy = true then Js.Num.zero else d.number) ∧
    (∀ digits : List Char, digits ≠ [] → (∀ c ∈ digits, Js.isDigit c = true) →
      Js.digitsVal digits < 2 ^ 53 →
      ∃ m q, Dashboard.scoreField ⟨digits⟩ = .finite false m q ∧
        (m : ℚ) * 2 ^ q = Js.digitsVal digits) := by
  have hempty : Dashboard.scoreField "" = Js.Num.zero := by
    have h0 : Js.parseFloat "" = .nan := by decide
    simp [Dashboard.scoreField, h0, Js.Num.orZero, Js.Num.falsy]
  have hnum : ∀ (ws : List Char) (d : Js.Decimal),
      (∀ c ∈ ws, Js.isWhiteSpace c = true) → d.wellFormed = true →
      Dashboard.scoreField ⟨ws ++ d.text⟩
        = if d.number.falsy = true then Js.Num.zero else d.number := by
    intro ws d hws hwf
    have h := Js.parseFloat_decimal ws d [] hws hwf (Js.Decimal.endsBefore_nil d)
    rw [List.append_nil] at h
    rw [Dashboard.scoreField, h]
    rfl
  refine ⟨?_, ?_, hempty, ?_, hnum, ?_, ?_, ?_⟩
  · simp [Dashboard.handleScoreSync, Dashboard.scoreRequest, Dashboard.run, Dashboard.step]
  · intro res
    rfl
  · intro field h
    have hnan := (Js.parseFloat_eq_nan field).2 h
    simp [Dashboard.scoreField, hnan, Js.Num.orZero, Js.Num.falsy]
  · intro ws sg rest hws
    rw [Dashboard.scoreField, Js.parseFloat_infinity ws sg rest hws]
    rfl
  · intro field hfield
    rcases hfield with h | ⟨d, hwf, h⟩
    · exact Or.inl ⟨h, h ▸ hempty⟩
    · refine Or.inr ⟨d, hwf, h, ?_⟩
      have := hnum [] d (by simp) hwf
      rw [h]
      simpa using this
  · intro digits hne hdig hlt
    obtain ⟨hwf, htext, m, q, hnumber, hv⟩ := Js.Decimal.number_nat_exact digits hne hdig hlt
    have h := hnum [] (Js.Decimal.mk none digits none none) (by simp) hwf
    rw [List.nil_append, htext, hnumber] at h
    by_cases hm : m = 0
    · refine ⟨0, -1074, ?_, ?_⟩
      · rw [h]
        simp [Js.Num.falsy, hm, Js.Num.zero]
      · rw [← hv, hm]
        simp
    · refine ⟨m, q, ?_, hv⟩
      rw [h]
      simp [Js.Num.falsy, hm]

theorem C4_handleScore_fields_witness :
    Dashboard.scoreField ⟨[' '] ++ (Js.Decimal.mk none ['1', '2'] (some ['5', '0']) none).text⟩
      = if (Js.Decimal.mk none ['1', '2'] (some ['5', '0']) none).number.falsy = true
        then Js.Num.zero
        else (Js.Decimal.mk none ['1', '2'] (some ['5', '0']) none).number :=
  (C4_handleScore_fields (Dashboard.State.init none)).2.2.2.2.1 [' ']
    (Js.Decimal.mk none ['1', '2'] (some ['5', '0']) none) (by decide) (by decide)

theorem Dashboard.Page.consistent_step (p : Dashboard.Page) (ev : Dashboard.PageEvent)
    (h : p.consistent) : (p.step ev).consistent := by
  obtain ⟨⟨profile, messages, input, loading, fields, result, scoreLoading, file, summary,
    uploadLoading, requests⟩, cc, cr, sc, uc, ur⟩ := p
  simp only [Dashboard.Page.consistent] at h ⊢
  obtain ⟨hc, hs, hu⟩ := h
  cases ev with
  | typeInput v =>
    simp only [Dashboard.Page.step]
    split_ifs <;> simp_all [Dashboard.run, Dashboard.step]
  | editScore f => simp_all [Dashboard.Page.step]
  | pickFile f => simp_all [Dashboard.Page.step, Dashboard.run, Dashboard.step]
  | submitChat =>
    simp only [Dashboard.Page.step, Dashboard.chatSubmitDisabled, Dashboard.handleChatSync]
    split_ifs <;>
      simp_all [Dashboard.run, Dashboard.step, Dashboard.Effect.isRequest, List.countP_cons]
  | submitScore =>
    simp only [Dashboard.Page.step, Dashboard.scoreSubmitDisabled, Dashboard.handleScoreSync]
    split_ifs <;>
      simp_all [Dashboard.run, Dashboard.step, Dashboard.Effect.isRequest, List.countP_cons]
  | submitUpload =>
    cases file <;> cases uploadLoading <;>
      simp_all [Dashboard.Page.step, Dashboard.uploadSubmitDisabled,
        Dashboard.handleUploadSync, Dashboard.run, Dashboard.step,
        Dashboard.Effect.isRequest, List.countP_cons]
  | chatResolved r =>
    simp only [Dashboard.Page.step]
    split_ifs <;> cases loading <;>
      simp_all [Dashboard.run, Dashboard.step, Dashboard.handleChatResolved] <;> omega
  | chatRejected err =>
    simp only [Dashboard.Page.step]
    split_ifs <;> cases loading <;>
      simp_all [Dashboard.run, Dashboard.step, Dashboard.handleChatRejected] <;> omega
  | chatRefreshed me =>
    simp only [Dashboard.Page.step]
    split_ifs <;> cases loading <;> cases me <;>
      simp_all [Dashboard.run, Dashboard.step, Dashboard.refreshProfileSettled] <;> omega
  | scoreSettled res =>
    simp only [Dashboard.Page.step]
    split_ifs <;> cases scoreLoading <;> cases res <;>
      simp_all [Dashboard.run, Dashboard.step, Dashboard.handleScoreSettled]
  | uploadResolved r =>
    simp only [Dashboard.Page.step]
    split_ifs <;> cases uploadLoading <;>
      simp_all [Dashboard.run, Dashboard.step, Dashboard.handleUploadResolved] <;> omega
  | uploadRejected err =>
    simp only [Dashboard.Page.step]
    split_ifs <;> cases uploadLoading <;>
      simp_all [Dashboard.run, Dashboard.step, Dashboard.handleUploadRejected] <;> omega
  | uploadRefreshed me =>
    simp only [Dashboard.Page.step]
    split_ifs <;> cases uploadLoading <;> cases me <;>
      simp_all [Dashboard.run, Dashboard.step, Dashboard.refreshProfileSettled] <;> omega

theorem Dashboard.Page.consistent_process (profile : Option Api.Profile)
    (evs : List Dashboard.PageEvent) : (Dashboard.Page.process profile evs).consistent := by
  have hgen : ∀ (evs : List Dashboard.PageEvent) (p : Dashboard.Page), p.consistent →
      (evs.foldl Dashboard.Page.step p).consistent := by
    intro evs
    induction evs with
    | nil => intro p hp; exact hp
    | cons ev evs ih =>
      intro p hp
      exact ih (p.step ev) (Dashboard.Page.consistent_step p ev hp)
  exact hgen evs (Dashboard.Page.init profile)
    (by simp [Dashboard.Page.consistent, Dashboard.Page.init, Dashboard.State.init])

/-- C7 (refuted as stated): once `handleScore` has issued its request and `scoreLoading` is
true, invoking `handleScore` again issues a second `/zentra-score` request. -/
theorem C7_counterexample :
    (Dashboard.run (Dashboard.State.init none)
        (Dashboard.handleScoreSync (Dashboard.State.init none))).scoreLoading = true ∧
    (Dashboard.run (Dashboard.State.init none)
        (Dashboard.handleScoreSync (Dashboard.State.init none))).requests
      = [Dashboard.scoreRequest ⟨"", "", "", ""⟩] ∧
    (Dashboard.run
        (Dashboard.run (Dashboard.State.init none)
          (Dashboard.handleScoreSync (Dashboard.State.init none)))
        (Dashboard.handleScoreSync
          (Dashboard.run (Dashboard.State.init none)
            (Dashboard.handleScoreSync (Dashboard.State.init none))))).requests
      = [Dashboard.scoreRequest ⟨"", "", "", ""⟩, Dashboard.scoreRequest ⟨"", "", "", ""⟩] := by
  refine ⟨by decide, by decide, by decide⟩

/-- C7 (amended): `handleChat` and `handleUpload`, invoked while their pending flag is true,
issue no request and change no state.  `handleScore` has no such check; its form is submitted
only through a submit button that is disabled while `scoreLoading` is true, and a submission of
the score form then leaves the page as it is.  With the three forms submitted through their
buttons, after every sequence of edits, submissions and settlements at most one request of each
kind is in flight. -/
theorem C7_reentry_guard :
    (∀ (s : Dashboard.State) res me, s.loading = true →
      Dashboard.handleChatSync s = [] ∧ Dashboard.handleChat s res me = [] ∧
      Dashboard.run s (Dashboard.handleChat s res me) = s) ∧
    (∀ (s : Dashboard.State) res me, s.uploadLoading = true →
      Dashboard.handleUploadSync s = [] ∧ Dashboard.handleUpload s res me = [] ∧
      Dashboard.run s (Dashboard.handleUpload s res me) = s) ∧
    (∀ p : Dashboard.Page, p.dash.scoreLoading = true → p.step .submitScore = p) ∧
    (∀ (profile : Option Api.Profile) (evs : List Dashboard.PageEvent),
      (Dashboard.Page.process profile evs).chatCalls ≤ 1 ∧
      (Dashboard.Page.process profile evs).scoreCalls ≤ 1 ∧
      (Dashboard.Page.process profile evs).uploadCalls ≤ 1) := by
  refine ⟨?_, ?_, ?_, ?_⟩
  · intro s res me hl
    have he : Dashboard.chatReturnsEarly s = true := by simp [Dashboard.chatReturnsEarly, hl]
    simp [Dashboard.handleChatSync, Dashboard.handleChat, he, Dashboard.run]
  · intro s res me hl
    have he : Dashboard.uploadReturnsEarly s = true := by
      simp [Dashboard.uploadReturnsEarly, hl]
    have hsync : Dashboard.handleUploadSync s = [] := by
      unfold Dashboard.handleUploadSync
      split <;> simp [hl]
    simp [hsync, Dashboard.handleUpload, he, Dashboard.run]
  · intro p hl
    simp [Dashboard.Page.step, Dashboard.scoreSubmitDisabled, hl]
  · intro profile evs
    obtain ⟨hc, hs, hu⟩ := Dashboard.Page.consistent_process profile evs
    refine ⟨?_, ?_, ?_⟩
    · have : (if (Dashboard.Page.process profile evs).dash.loading = true then 1 else 0) ≤ 1 := by
        split <;> omega
      omega
    · rw [hs]
      split <;> omega
    · have : (if (Dashboard.Page.process profile evs).dash.uploadLoading = true then 1 else 0)
          ≤ 1 := by
        split <;> omega
      omega

theorem C7_reentry_guard_witness :
    Dashboard.handleChat { Dashboard.State.init none with input := "hi", loading := true }
        (.resolved ⟨⟨.assistant, "hello"⟩⟩) (.resolved ⟨30⟩) = [] ∧
    (Dashboard.Page.process none [.submitScore, .submitScore, .submitScore]).scoreCalls ≤ 1 :=
  ⟨(C7_reentry_guard.1 { Dashboard.State.init none with input := "hi", loading := true }
      (.resolved ⟨⟨.assistant, "hello"⟩⟩) (.resolved ⟨30⟩) rfl).2.1,
   (C7_reentry_guard.2.2.2 none [.submitScore, .submitScore, .submitScore]).2.1⟩

theorem Js.truthy_error (t : String) : Js.truthy (some ("Error: " ++ t)) = true := by
  have h : ("Error: " ++ t).data ≠ "".data := by
    rw [String.data_append]
    simp
  have h2 : "Error: " ++ t ≠ "" := fun e => h (by rw [e])
  simp [Js.truthy, Js.truthyStr, h2]

/-- On an error whose detail is a non-empty string, or that has no detail and a non-empty
message, each of the three handlers runs to its end, resets its pending flag and shows that
string: chat and upload behind `Error: `, the score panel as its error paragraph. -/
theorem Dashboard.action_failure_text (s : Dashboard.State) (err : Api.ApiError)
    (me : Api.Outcome Api.Profile) (text : String) (hne : text ≠ "")
    (htext : err.detail = some (.str text) ∨ (err.detail = none ∧ err.message = text)) :
    (Dashboard.chatReturnsEarly s = false →
      (Dashboard.run s (Dashboard.handleChat s (.rejected err) me)).messages
        = s.messages ++ [⟨.user, Js.trim s.input⟩, ⟨.assistant, "Error: " ++ text⟩] ∧
      (Dashboard.run s (Dashboard.handleChat s (.rejected err) me)).loading = false) ∧
    (Dashboard.scorePanel (Dashboard.run s (Dashboard.handleScore s (.rejected err)))
        = .error text ∧
      (Dashboard.run s (Dashboard.handleScore s (.rejected err))).scoreLoading = false) ∧
    (Dashboard.uploadReturnsEarly s = false →
      Dashboard.uploadPanel (Dashboard.run s (Dashboard.handleUpload s (.rejected err) me))
        = some ("Error: " ++ text) ∧
      (Dashboard.run s (Dashboard.handleUpload s (.rejected err) me)).uploadLoading = false) := by
  have hval : Dashboard.errorValue err = .str text := by
    rcases htext with h | ⟨h, hm⟩
    · simp [Dashboard.errorValue, Js.Json.orElse, Js.Json.truthy, Js.truthyStr, h, hne]
    · simp [Dashboard.errorValue, Js.Json.orElse, h, hm]
  have hchat : Dashboard.chatErrorText err = text := by
    have h := hval
    unfold Dashboard.errorValue at h
    have htr : (Js.Json.str text).truthy = true := by
      simp [Js.Json.truthy, Js.truthyStr, hne]
    unfold Dashboard.chatErrorText
    rw [h]
    simp only [Js.Json.orElse, htr, if_true, Js.Json.toStr]
  refine ⟨?_, ?_, ?_⟩
  · intro hgo
    simp [Dashboard.handleChat, Dashboard.handleChatSync, Dashboard.handleChatSettled, hgo,
      Dashboard.run, Dashboard.step, Dashboard.userMsg, hchat]
  · simp [Dashboard.handleScore, Dashboard.handleScoreSync, Dashboard.handleScoreSettled,
      Dashboard.run, Dashboard.step, Dashboard.scorePanel, hval, Js.Json.truthy, Js.truthyStr,
      hne, Dashboard.renderChild]
  · intro hgo
    cases hf : s.file with
    | none => simp [Dashboard.uploadReturnsEarly, hf] at hgo
    | some f =>
      have hl : s.uploadLoading = false := by
        simpa [Dashboard.uploadReturnsEarly, hf] using hgo
      simp [Dashboard.handleUpload, Dashboard.handleUploadSync, Dashboard.handleUploadSettled,
        hgo, hf, hl, Dashboard.run, Dashboard.step, Dashboard.uploadPanel,
        Dashboard.uploadErrorText, hval, Js.Json.toStr, Js.truthy_error]

/-- C6: when `/zentra-score` rejects with status 422 and a detail that is a list holding one
object, `handleScore` stores that list as the error and rendering the score panel throws: no
error string is displayed.  `handleChat` and `handleUpload`, given the same rejection, display
`Error: [object Object]`; and a `/chat` rejection with status 402 and detail
`insufficient credits` displays `Error: insufficient credits`. -/
theorem C6_score_detail_throws :
    Dashboard.scorePanel
        (Dashboard.run (Dashboard.State.init none)
          (Dashboard.handleScore (Dashboard.State.init none)
            (.rejected ⟨"Request failed with status code 422",
              some ⟨422, some ⟨some (.arr (.cons (.obj (.cons (.str "float_parsing")
                (.cons (.str "Input should be a valid number") .nil))) .nil))⟩⟩⟩)))
      = .throws ∧
    (Dashboard.run { Dashboard.State.init none with input := "hi" }
        (Dashboard.handleChat { Dashboard.State.init none with input := "hi" }
          (.rejected ⟨"Request failed with status code 422",
            some ⟨422, some ⟨some (.arr (.cons (.obj (.cons (.str "float_parsing")
              (.cons (.str "Input should be a valid number") .nil))) .nil))⟩⟩⟩)
          (.rejected ⟨"Network Error", none⟩))).messages
      = [⟨.user, "hi"⟩, ⟨.assistant, "Error: [object Object]"⟩] ∧
    Dashboard.uploadPanel
        (Dashboard.run { Dashboard.State.init none with file := some ⟨"a.pdf"⟩ }
          (Dashboard.handleUpload { Dashboard.State.init none with file := some ⟨"a.pdf"⟩ }
            (.rejected ⟨"Request failed with status code 422",
              some ⟨422, some ⟨some (.arr (.cons (.obj (.cons (.str "float_parsing")
                (.cons (.str "Input should be a valid number") .nil))) .nil))⟩⟩⟩)
            (.rejected ⟨"Network Error", none⟩)))
      = some "Error: [object Object]" ∧
    (Dashboard.run { Dashboard.State.init none with input := "hi" }
        (Dashboard.handleChat { Dashboard.State.init none with input := "hi" }
          (.rejected ⟨"Request failed with status code 402",
            some ⟨402, some ⟨some (.str "insufficient credits")⟩⟩⟩)
          (.rejected ⟨"Network Error", none⟩))).messages
      = [⟨.user, "hi"⟩, ⟨.assistant, "Error: insufficient credits"⟩] := by
  refine ⟨by decide, by decide, by decide, by decide⟩

/-- C11: when `handleChat` is invoked on a message list `M` with an input that is sent, it posts
one request, to `/chat`, whose body holds the messages `P`: `M` followed by the new user entry
with its content trimmed, every entry carrying its role and content, in order; `P` has length
`|M| + 1` and contains every entry of `M`; and after a call that failed, the next payload
contains the `Error: …` assistant entry which that failure appended. -/
theorem C11_chat_payload (s : Dashboard.State)
    (hinput : Js.trim s.input ≠ "") (hidle : s.loading = false) :
    (Dashboard.run s (Dashboard.handleChatSync s)).requests
      = s.requests ++ [.post "/chat"
          (.messages ((s.messages ++ [(⟨.user, Js.trim s.input⟩ : Api.Message)]).map
            fun (m : Api.Message) => (⟨m.role, m.content⟩ : Api.Message)))] ∧
    ((s.messages ++ [(⟨.user, Js.trim s.input⟩ : Api.Message)]).map
        fun (m : Api.Message) => (⟨m.role, m.content⟩ : Api.Message))
      = s.messages ++ [⟨.user, Js.trim s.input⟩] ∧
    (s.messages ++ [(⟨.user, Js.trim s.input⟩ : Api.Message)]).length = s.messages.length + 1 ∧
    (∀ m ∈ s.messages, m ∈ s.messages ++ [(⟨.user, Js.trim s.input⟩ : Api.Message)]) ∧
    ∀ (err : Api.ApiError) (me : Api.Outcome Api.Profile) (next : String),
      Js.trim next ≠ "" →
      (Dashboard.run
          { Dashboard.run s (Dashboard.handleChat s (.rejected err) me) with input := next }
          (Dashboard.handleChatSync
            { Dashboard.run s (Dashboard.handleChat s (.rejected err) me) with
              input := next })).requests
        = (Dashboard.run s (Dashboard.handleChat s (.rejected err) me)).requests ++
          [.post "/chat" (.messages (s.messages ++ [⟨.user, Js.trim s.input⟩,
            ⟨.assistant, "Error: " ++ Dashboard.chatErrorText err⟩, ⟨.user, Js.trim next⟩]))] := by
  have hgo : Dashboard.chatReturnsEarly s = false := by
    simp [Dashboard.chatReturnsEarly, Js.truthyStr, hinput, hidle]
  refine ⟨?_, ?_, ?_, ?_, ?_⟩
  · simp [Dashboard.handleChatSync, hgo, Dashboard.run, Dashboard.step, Dashboard.userMsg,
      Api.chat]
  · simp
  · simp
  · intro m hm
    simp [hm]
  · intro err me next hnext
    have hs1 : Dashboard.run s (Dashboard.handleChat s (.rejected err) me)
        = { s with
            messages := s.messages ++ [⟨.user, Js.trim s.input⟩,
              ⟨.assistant, "Error: " ++ Dashboard.chatErrorText err⟩],
            input := "", loading := false,
            requests := s.requests ++ [Api.chat (s.messages ++ [⟨.user, Js.trim s.input⟩])] } := by
      simp [Dashboard.handleChat, Dashboard.handleChatSync, Dashboard.handleChatSettled, hgo,
        Dashboard.run, Dashboard.step, Dashboard.userMsg]
    rw [hs1]
    simp [Dashboard.handleChatSync, Dashboard.chatReturnsEarly, Js.truthyStr, hnext,
      Dashboard.run, Dashboard.step, Dashboard.userMsg, Api.chat]

theorem C11_chat_payload_witness :
    (Dashboard.run
        { Dashboard.State.init none with
          messages := [⟨.user, "a"⟩, ⟨.assistant, "Error: Network Error"⟩], input := " b " }
        (Dashboard.handleChatSync
          { Dashboard.State.init none with
            messages := [⟨.user, "a"⟩, ⟨.assistant, "Error: Network Error"⟩],
            input := " b " })).requests
      = [.post "/chat" (.messages
          [⟨.user, "a"⟩, ⟨.assistant, "Error: Network Error"⟩, ⟨.user, "b"⟩])] :=
  (C11_chat_payload
    { Dashboard.State.init none with
      messages := [⟨.user, "a"⟩, ⟨.assistant, "Error: Network Error"⟩], input := " b " }
    (by decide) rfl).1
